import Mathlib

/-!
Verification of the terrain synthesis engine of the python-world-generator
repository (src/terraingen.py), as a shallow embedding over the rationals.
Python floats are modelled as rational numbers; Python lists of tiles are
modelled as total functions from coordinates, updated pointwise exactly where
the source mutates them.  Every definition is translated from the source; the
two deliberate exceptions (the seeded stdlib random stream and the seeded
stdlib shuffle, both of which live in the Python standard library, not in the
repository) are marked "Modelled from the spec".
-/

/-! ## Basic numeric helpers -/

/-- Python truncating conversion int(x): rounds toward zero. -/
def pyInt (q : ℚ) : ℤ := if q < 0 then -(⌊-q⌋) else ⌊q⌋

/-- clamp to the unit interval, as in max(0.0, min(1.0, e)) in the source. -/
def clamp01 (q : ℚ) : ℚ := max 0 (min 1 q)

theorem pyInt_of_nonneg {q : ℚ} (h : 0 ≤ q) : pyInt q = ⌊q⌋ := by
  unfold pyInt
  rw [if_neg (not_lt.mpr h)]

theorem pyInt_frac_bounds {q : ℚ} (h : 0 ≤ q) :
    0 ≤ q - (pyInt q : ℚ) ∧ q - (pyInt q : ℚ) < 1 := by
  rw [pyInt_of_nonneg h]
  constructor
  · have := Int.floor_le q
    linarith
  · have := Int.lt_floor_add_one q
    linarith

theorem pyInt_eq_zero_of_small_neg {q : ℚ} (h0 : -1 < q) (h1 : q < 0) :
    pyInt q = 0 := by
  unfold pyInt
  rw [if_pos h1]
  have : ⌊-q⌋ = 0 := by
    rw [Int.floor_eq_zero_iff, Set.mem_Ico]
    constructor <;> linarith
  rw [this]
  rfl

/-! ## SimplexNoise (src/terraingen.py lines 39-85) -/

/-- Fade function for smooth interpolation: t*t*t*(t*(t*6-15)+10). -/
def fade (t : ℚ) : ℚ := t * t * t * (t * (t * 6 - 15) + 10)

/-- Linear interpolation a + t*(b-a). -/
def lerp (a b t : ℚ) : ℚ := a + t * (b - a)

/-- Gradient function.  hash_val & 3 on a nonnegative integer is hash_val % 4,
and for h < 4, h & 1 = h % 2 and (h & 2 == 0) iff h < 2. -/
def grad (hashVal : ℕ) (x y : ℚ) : ℚ :=
  let h := hashVal % 4
  let u := if h < 2 then x else y
  let v := if h < 2 then y else x
  (if h % 2 = 0 then u else -u) + (if h < 2 then v else -v)

/-- Simplified 2D simplex noise state: the permutation table, already
duplicated to length 512 as in the constructor (self.perm = self.perm * 2). -/
structure SimplexNoise where
  perm : List ℕ
deriving DecidableEq

/-- Modelled from the spec: the constructor seeds random.Random(seed) and
shuffles list(range(256)) with it, a deterministic, seed-dependent permutation
of 0..255.  The stdlib Mersenne-Twister shuffle is not part of this
repository; it is modelled as the affine bijection i -> (2*seed+1)*i + seed
mod 256 (the multiplier is odd, hence invertible mod 256). -/
def permOfSeed (seed : ℕ) : List ℕ :=
  (List.range 256).map (fun i => ((2 * seed + 1) * i + seed) % 256)

/-- Constructor: shuffled table duplicated to length 512. -/
def mkSimplexNoise (seed : ℕ) : SimplexNoise :=
  ⟨permOfSeed seed ++ permOfSeed seed⟩

/-- Interpolation of the four hashed corner gradients of one lattice cell,
at fractional offsets (xf, yf): the last six lines of noise2d. -/
def noiseCell (aa ab ba bb : ℕ) (xf yf : ℚ) : ℚ :=
  let u : ℚ := fade xf
  let v : ℚ := fade yf
  let x1 := lerp (grad aa xf yf) (grad ba (xf - 1) yf) u
  let x2 := lerp (grad ab xf (yf - 1)) (grad bb (xf - 1) (yf - 1)) u
  lerp x1 x2 v

/-- Generate 2D simplex noise value (source lines 48-70).  List indexing
self.perm[i] is modelled with getD; for a well-formed 512-entry table every
index used here is in range. -/
def SimplexNoise.noise2d (s : SimplexNoise) (x y : ℚ) : ℚ :=
  let xi : ℕ := ((pyInt x) % 256).toNat
  let yi : ℕ := ((pyInt y) % 256).toNat
  let xf : ℚ := x - (pyInt x : ℚ)
  let yf : ℚ := y - (pyInt y : ℚ)
  let aa := s.perm.getD (s.perm.getD xi 0 + yi) 0
  let ab := s.perm.getD (s.perm.getD xi 0 + yi + 1) 0
  let ba := s.perm.getD (s.perm.getD (xi + 1) 0 + yi) 0
  let bb := s.perm.getD (s.perm.getD (xi + 1) 0 + yi + 1) 0
  noiseCell aa ab ba bb xf yf

/-! ### Facts about fade, lerp and grad -/

theorem fade_nonneg {t : ℚ} (h0 : 0 ≤ t) : 0 ≤ fade t := by
  unfold fade
  nlinarith [sq_nonneg t, sq_nonneg (t - 5/4), mul_nonneg (mul_nonneg h0 h0) h0]

theorem fade_le_one {t : ℚ} (h1 : t ≤ 1) : fade t ≤ 1 := by
  unfold fade
  nlinarith [sq_nonneg (2*t + 1), mul_nonneg (mul_nonneg (sub_nonneg.mpr h1) (sub_nonneg.mpr h1)) (sub_nonneg.mpr h1)]

/-- Key inequality: (2t-1) and (2*fade t - 1) have the same sign on [0,1]. -/
theorem fade_key {t : ℚ} (h0 : 0 ≤ t) (h1 : t ≤ 1) :
    0 ≤ (2*t - 1) * (2 * fade t - 1) := by
  have hq : 0 ≤ 6*(t*(t-1))^2 + 2*(t*(1-t)) + 1 := by
    nlinarith [sq_nonneg (t*(t-1)), mul_nonneg h0 (sub_nonneg.mpr h1)]
  have hident : (2*t - 1) * (2 * fade t - 1)
      = (2*t - 1)^2 * (6*(t*(t-1))^2 + 2*(t*(1-t)) + 1) := by
    unfold fade; ring
  rw [hident]
  exact mul_nonneg (sq_nonneg _) hq

/-- Lower bound for fade on [-1/10, 1]. -/
theorem fade_lb {t : ℚ} (h0 : -(1/10) ≤ t) (h1 : t ≤ 1) : -(3/250) ≤ fade t := by
  rcases le_or_lt 0 t with ht | ht
  · have := fade_nonneg ht
    linarith
  · have h2 : 0 ≤ t + 1/10 := by linarith
    have h3 : 0 ≤ t^2 - t/10 + 1/100 := by nlinarith [sq_nonneg (t - 1/20)]
    have hcube : -(1/1000) ≤ t^3 := by nlinarith [mul_nonneg h2 h3]
    have hsq : t^2 ≤ 1/100 := by nlinarith
    have hM0 : 0 < t*(t*6 - 15) + 10 := by nlinarith
    have hM1 : t*(t*6 - 15) + 10 ≤ 289/25 := by nlinarith
    have : fade t = t^3 * (t*(t*6 - 15) + 10) := by unfold fade; ring
    rw [this]
    nlinarith [mul_nonneg h2 h3, mul_pos (show (0:ℚ) < 1/1000 + t^3 + 1/1000 from by nlinarith) hM0]

theorem lerp_le_lerp {a b A B t : ℚ} (ha : a ≤ A) (hb : b ≤ B)
    (h0 : 0 ≤ t) (h1 : t ≤ 1) : lerp a b t ≤ lerp A B t := by
  unfold lerp
  nlinarith [mul_nonneg h0 (sub_nonneg.mpr hb),
    mul_nonneg (sub_nonneg.mpr h1) (sub_nonneg.mpr ha)]

theorem lerp_neg (A B t : ℚ) : lerp (-A) (-B) t = -(lerp A B t) := by
  unfold lerp; ring

/-- The gradient is one of three linear forms: x+y, y-x or -(x+y). -/
theorem grad_cases (h : ℕ) (x y : ℚ) :
    grad h x y = x + y ∨ grad h x y = y - x ∨ grad h x y = -(x + y) := by
  have h4 : h % 4 = 0 ∨ h % 4 = 1 ∨ h % 4 = 2 ∨ h % 4 = 3 := by omega
  rcases h4 with h4 | h4 | h4 | h4 <;> simp [grad, h4] <;> ring_nf <;> try tauto

/-- Two-sided bound on the gradient from bounds on its coordinates. -/
theorem grad_bound (h : ℕ) {x y mx my : ℚ} (hx : |x| ≤ mx) (hy : |y| ≤ my) :
    -(mx + my) ≤ grad h x y ∧ grad h x y ≤ mx + my := by
  obtain ⟨hx1, hx2⟩ := abs_le.mp hx
  obtain ⟨hy1, hy2⟩ := abs_le.mp hy
  rcases grad_cases h x y with hg | hg | hg <;> rw [hg] <;>
    exact ⟨by linarith, by linarith⟩

/-- Core estimate: with fractional offsets in [0,1) the interpolated cell
value lies in [-1,1], for any corner hashes. -/
theorem noiseCell_range (aa ab ba bb : ℕ) {a b : ℚ}
    (ha0 : 0 ≤ a) (ha1 : a < 1) (hb0 : 0 ≤ b) (hb1 : b < 1) :
    -1 ≤ noiseCell aa ab ba bb a b ∧ noiseCell aa ab ba bb a b ≤ 1 := by
  have hu0 : 0 ≤ fade a := fade_nonneg ha0
  have hu1 : fade a ≤ 1 := fade_le_one (le_of_lt ha1)
  have hv0 : 0 ≤ fade b := fade_nonneg hb0
  have hv1 : fade b ≤ 1 := fade_le_one (le_of_lt hb1)
  have haab : |a| ≤ a := le_of_eq (abs_of_nonneg ha0)
  have habb : |b| ≤ b := le_of_eq (abs_of_nonneg hb0)
  have haab1 : |a - 1| ≤ 1 - a := by rw [abs_of_nonpos (by linarith)]; linarith
  have habb1 : |b - 1| ≤ 1 - b := by rw [abs_of_nonpos (by linarith)]; linarith
  have c1 := grad_bound aa haab habb
  have c2 := grad_bound ba haab1 habb
  have c3 := grad_bound ab haab habb1
  have c4 := grad_bound bb haab1 habb1
  have hx1u : lerp (grad aa a b) (grad ba (a-1) b) (fade a)
      ≤ lerp (a + b) ((1 - a) + b) (fade a) :=
    lerp_le_lerp c1.2 c2.2 hu0 hu1
  have hx1l : lerp (-(a + b)) (-((1 - a) + b)) (fade a)
      ≤ lerp (grad aa a b) (grad ba (a-1) b) (fade a) :=
    lerp_le_lerp c1.1 c2.1 hu0 hu1
  have hx2u : lerp (grad ab a (b-1)) (grad bb (a-1) (b-1)) (fade a)
      ≤ lerp (a + (1 - b)) ((1 - a) + (1 - b)) (fade a) :=
    lerp_le_lerp c3.2 c4.2 hu0 hu1
  have hx2l : lerp (-(a + (1 - b))) (-((1 - a) + (1 - b))) (fade a)
      ≤ lerp (grad ab a (b-1)) (grad bb (a-1) (b-1)) (fade a) :=
    lerp_le_lerp c3.1 c4.1 hu0 hu1
  rw [lerp_neg] at hx1l
  rw [lerp_neg] at hx2l
  have hFtop : lerp (lerp (a + b) ((1 - a) + b) (fade a))
      (lerp (a + (1 - b)) ((1 - a) + (1 - b)) (fade a)) (fade b)
      = (a + fade a * (1 - 2*a)) + (b + fade b * (1 - 2*b)) := by
    unfold lerp; ring
  have hka := fade_key ha0 (le_of_lt ha1)
  have hkb := fade_key hb0 (le_of_lt hb1)
  have hFa : a + fade a * (1 - 2*a) ≤ 1/2 := by nlinarith
  have hFb : b + fade b * (1 - 2*b) ≤ 1/2 := by nlinarith
  constructor
  · have hlow : -(lerp (lerp (a + b) ((1 - a) + b) (fade a))
        (lerp (a + (1 - b)) ((1 - a) + (1 - b)) (fade a)) (fade b))
        ≤ noiseCell aa ab ba bb a b := by
      unfold noiseCell
      rw [← lerp_neg]
      exact lerp_le_lerp hx1l hx2l hv0 hv1
    calc (-1 : ℚ) ≤ -((a + fade a * (1 - 2*a)) + (b + fade b * (1 - 2*b))) := by linarith
    _ = -(lerp (lerp (a + b) ((1 - a) + b) (fade a))
        (lerp (a + (1 - b)) ((1 - a) + (1 - b)) (fade a)) (fade b)) := by rw [hFtop]
    _ ≤ noiseCell aa ab ba bb a b := hlow
  · calc noiseCell aa ab ba bb a b
        ≤ lerp (lerp (a + b) ((1 - a) + b) (fade a))
          (lerp (a + (1 - b)) ((1 - a) + (1 - b)) (fade a)) (fade b) := by
          unfold noiseCell
          exact lerp_le_lerp hx1u hx2u hv0 hv1
    _ = (a + fade a * (1 - 2*a)) + (b + fade b * (1 - 2*b)) := hFtop
    _ ≤ 1 := by linarith

/-- Fractional part bounds when the argument is at least -1/10. -/
theorem pyInt_frac_bounds_ext {q : ℚ} (h : -(1/10) ≤ q) :
    -(1/10) ≤ q - (pyInt q : ℚ) ∧ q - (pyInt q : ℚ) < 1 := by
  rcases le_or_lt 0 q with h0 | h0
  · obtain ⟨h1, h2⟩ := pyInt_frac_bounds h0
    exact ⟨by linarith, h2⟩
  · rw [pyInt_eq_zero_of_small_neg (by linarith) h0]
    push_cast
    constructor <;> linarith

/-- Extended lerp estimate allowing a slightly negative parameter. -/
theorem lerp_bound_ext (M e a b t : ℚ) (ha1 : -M ≤ a) (ha2 : a ≤ M)
    (hb1 : -M ≤ b) (hb2 : b ≤ M) (ht0 : -e ≤ t) (ht1 : t ≤ 1) (heps : 0 ≤ e) :
    -(M * (1 + 2*e)) ≤ lerp a b t ∧ lerp a b t ≤ M * (1 + 2*e) := by
  have hM : 0 ≤ M := by linarith
  unfold lerp
  rcases le_or_lt 0 t with h | h
  · constructor
    · nlinarith [mul_nonneg h (by linarith : 0 ≤ b + M),
        mul_nonneg (by linarith : 0 ≤ 1 - t) (by linarith : 0 ≤ a + M),
        mul_nonneg hM heps]
    · nlinarith [mul_nonneg h (by linarith : 0 ≤ M - b),
        mul_nonneg (by linarith : 0 ≤ 1 - t) (by linarith : 0 ≤ M - a),
        mul_nonneg hM heps]
  · have hnt : 0 ≤ -t := by linarith
    have hte : -t ≤ e := by linarith
    constructor
    · nlinarith [mul_nonneg (by linarith : 0 ≤ 1 - t) (by linarith : 0 ≤ a + M),
        mul_nonneg hnt (by linarith : 0 ≤ M - b),
        mul_le_mul_of_nonneg_left hte hM]
    · nlinarith [mul_nonneg (by linarith : 0 ≤ 1 - t) (by linarith : 0 ≤ M - a),
        mul_nonneg hnt (by linarith : 0 ≤ M + b),
        mul_le_mul_of_nonneg_left hte hM]

/-- Cell estimate for fractional offsets in [-1/10, 1): the value is within
[-5/2, 5/2].  This covers the slightly negative sampling coordinates produced
by domain warping when scale is at least 100. -/
theorem noiseCell_warp_bound (aa ab ba bb : ℕ) {a b : ℚ}
    (ha0 : -(1/10) ≤ a) (ha1 : a < 1) (hb0 : -(1/10) ≤ b) (hb1 : b < 1) :
    -(5/2) ≤ noiseCell aa ab ba bb a b ∧ noiseCell aa ab ba bb a b ≤ 5/2 := by
  have hu0 : -(3/250) ≤ fade a := fade_lb ha0 (le_of_lt ha1)
  have hu1 : fade a ≤ 1 := fade_le_one (le_of_lt ha1)
  have hv0 : -(3/250) ≤ fade b := fade_lb hb0 (le_of_lt hb1)
  have hv1 : fade b ≤ 1 := fade_le_one (le_of_lt hb1)
  have haab : |a| ≤ 11/10 := by rw [abs_le]; constructor <;> linarith
  have habb : |b| ≤ 11/10 := by rw [abs_le]; constructor <;> linarith
  have haab1 : |a - 1| ≤ 11/10 := by rw [abs_le]; constructor <;> linarith
  have habb1 : |b - 1| ≤ 11/10 := by rw [abs_le]; constructor <;> linarith
  have c1 := grad_bound aa haab habb
  have c2 := grad_bound ba haab1 habb
  have c3 := grad_bound ab haab habb1
  have c4 := grad_bound bb haab1 habb1
  have hx1 := lerp_bound_ext (11/5) (3/250) (grad aa a b) (grad ba (a-1) b) (fade a)
    (by linarith [c1.1]) (by linarith [c1.2]) (by linarith [c2.1]) (by linarith [c2.2])
    hu0 hu1 (by norm_num)
  have hx2 := lerp_bound_ext (11/5) (3/250) (grad ab a (b-1)) (grad bb (a-1) (b-1)) (fade a)
    (by linarith [c3.1]) (by linarith [c3.2]) (by linarith [c4.1]) (by linarith [c4.2])
    hu0 hu1 (by norm_num)
  have hout := lerp_bound_ext (11/5 * (1 + 2*(3/250))) (3/250)
    (lerp (grad aa a b) (grad ba (a-1) b) (fade a))
    (lerp (grad ab a (b-1)) (grad bb (a-1) (b-1)) (fade a)) (fade b)
    hx1.1 hx1.2 hx2.1 hx2.2 hv0 hv1 (by norm_num)
  unfold noiseCell
  constructor
  · calc (-(5/2) : ℚ) ≤ -(11/5 * (1 + 2*(3/250)) * (1 + 2*(3/250))) := by norm_num
    _ ≤ _ := hout.1
  · calc _ ≤ 11/5 * (1 + 2*(3/250)) * (1 + 2*(3/250)) := hout.2
    _ ≤ (5/2 : ℚ) := by norm_num

/-- noise2d lies in [-1,1] whenever both coordinates are nonnegative. -/
theorem noise2d_range (s : SimplexNoise) {x y : ℚ} (hx : 0 ≤ x) (hy : 0 ≤ y) :
    -1 ≤ s.noise2d x y ∧ s.noise2d x y ≤ 1 := by
  obtain ⟨ha0, ha1⟩ := pyInt_frac_bounds hx
  obtain ⟨hb0, hb1⟩ := pyInt_frac_bounds hy
  unfold SimplexNoise.noise2d
  exact noiseCell_range _ _ _ _ ha0 ha1 hb0 hb1

/-- noise2d lies in [-5/2, 5/2] whenever both coordinates are at least -1/10. -/
theorem noise2d_warp_range (s : SimplexNoise) {x y : ℚ}
    (hx : -(1/10) ≤ x) (hy : -(1/10) ≤ y) :
    -(5/2) ≤ s.noise2d x y ∧ s.noise2d x y ≤ 5/2 := by
  obtain ⟨ha0, ha1⟩ := pyInt_frac_bounds_ext hx
  obtain ⟨hb0, hb1⟩ := pyInt_frac_bounds_ext hy
  unfold SimplexNoise.noise2d
  exact noiseCell_warp_bound _ _ _ _ ha0 ha1 hb0 hb1

/-- At fractional offsets (-9/10, 9/10) the extrapolated fade curve pushes the
cell value out of [-1,1] whatever the four corner hashes are. -/
theorem noiseCell_escape (aa ab ba bb : ℕ) :
    noiseCell aa ab ba bb (-(9/10)) (9/10) < -1 ∨
      1 < noiseCell aa ab ba bb (-(9/10)) (9/10) := by
  rcases grad_cases aa (-(9/10)) (9/10) with h1 | h1 | h1 <;>
  rcases grad_cases ba (-(9/10) - 1) (9/10) with h2 | h2 | h2 <;>
  rcases grad_cases ab (-(9/10)) (9/10 - 1) with h3 | h3 | h3 <;>
  rcases grad_cases bb (-(9/10) - 1) (9/10 - 1) with h4 | h4 | h4 <;>
  simp only [noiseCell, lerp, fade, h1, h2, h3, h4] <;> norm_num

/-- For every permutation table, the noise value at (-9/10, 9/10) is outside
[-1,1]: Python int() truncates toward zero, so the fractional offset of -9/10
is itself -9/10, and the fade curve extrapolates far beyond the unit range. -/
theorem noise2d_escape (s : SimplexNoise) :
    s.noise2d (-(9/10)) (9/10) < -1 ∨ 1 < s.noise2d (-(9/10)) (9/10) := by
  have hx : pyInt (-(9/10)) = 0 := by
    apply pyInt_eq_zero_of_small_neg <;> norm_num
  have hy : pyInt ((9/10 : ℚ)) = 0 := by
    rw [pyInt_of_nonneg (by norm_num), Int.floor_eq_zero_iff, Set.mem_Ico]
    constructor <;> norm_num
  unfold SimplexNoise.noise2d
  rw [hx, hy]
  push_cast
  rw [sub_zero, sub_zero]
  exact noiseCell_escape _ _ _ _

/-- C6 (amended): the noise function is deterministic for all inputs (it is a
pure function of the permutation table and the coordinates); its value lies in
[-1,1] whenever both coordinates are nonnegative; for the negative coordinate
pair (-9/10, 9/10) the value escapes [-1,1] for every permutation table,
because Python int() truncates toward zero, giving a negative fractional
offset on which the fade curve extrapolates. -/
theorem c6_noise_determinism_and_range (s : SimplexNoise) (x y : ℚ) :
    (∀ s2 : SimplexNoise, ∀ x2 y2 : ℚ, s = s2 → x = x2 → y = y2 →
        s.noise2d x y = s2.noise2d x2 y2)
    ∧ (0 ≤ x → 0 ≤ y → -1 ≤ s.noise2d x y ∧ s.noise2d x y ≤ 1)
    ∧ (s.noise2d (-(9/10)) (9/10) < -1 ∨ 1 < s.noise2d (-(9/10)) (9/10)) := by
  refine ⟨?_, ?_, noise2d_escape s⟩
  · rintro s2 x2 y2 rfl rfl rfl
    rfl
  · intro hx hy
    exact noise2d_range s hx hy

/-- C6 witness: the amended theorem applied at the seed-0 table and the
origin. -/
theorem c6_noise_witness :
    (mkSimplexNoise 0).noise2d 0 0 = (mkSimplexNoise 0).noise2d 0 0
    ∧ (-1 ≤ (mkSimplexNoise 0).noise2d 0 0 ∧ (mkSimplexNoise 0).noise2d 0 0 ≤ 1) := by
  have h := c6_noise_determinism_and_range (mkSimplexNoise 0) 0 0
  exact ⟨h.1 (mkSimplexNoise 0) 0 0 rfl rfl rfl, h.2.1 (by norm_num) (by norm_num)⟩

/-- C6 counterexample: at seed 42 (any seed works: the escape holds for every
permutation table) the noise value at coordinates (-9/10, 9/10) falls outside
[-1,1], refuting the claim that every real coordinate pair yields a value in
[-1,1]. -/
theorem c6_noise_range_counterexample :
    ¬(-1 ≤ (mkSimplexNoise 42).noise2d (-(9/10)) (9/10)
        ∧ (mkSimplexNoise 42).noise2d (-(9/10)) (9/10) ≤ 1) := by
  rcases noise2d_escape (mkSimplexNoise 42) with h | h
  · intro hc
    linarith [hc.1]
  · intro hc
    linarith [hc.2]

/-! ## Tiles, rivers and configuration (source lines 15-37, 91-121) -/

/-- Single map tile. -/
structure Tile where
  x : ℤ
  y : ℤ
  elevation : ℚ
  moisture : ℚ
  biome : String
  water : Bool
  river : Bool := false
  river_size : ℕ := 0
  terrain_feature : Option String := none
deriving DecidableEq

/-- River path from source to mouth. -/
structure River where
  id : String
  source : ℤ × ℤ
  mouth : ℤ × ℤ
  path : List (ℤ × ℤ)
  length : ℕ
deriving DecidableEq

/-- The ten constructor parameters of TerrainGenerator, stored on self. -/
structure Config where
  width : ℕ
  height : ℕ
  seed : ℕ
  mode : String
  octaves : ℕ
  persistence : ℚ
  lacunarity : ℚ
  scale : ℚ
  river_count : ℕ
  prevailing_wind : String
deriving DecidableEq

/-- TerrainGenerator.__init__ (source lines 91-121): the size validation is
the first statement of the constructor; the ValueError is modelled as the
error branch and is raised before any state (the tile grid is created empty
only after the check) exists. -/
def terrainGeneratorInit (width height seed : ℕ) (mode : String) (octaves : ℕ)
    (persistence lacunarity scale : ℚ) (river_count : ℕ)
    (prevailing_wind : String) : Except String Config :=
  if width < 50 ∨ height < 50 then
    Except.error "Map size must be at least 50x50 for realistic noise generation"
  else
    Except.ok ⟨width, height, seed, mode, octaves, persistence, lacunarity,
      scale, river_count, prevailing_wind⟩

/-- C9: the constructor raises the input-validation error if and only if
width < 50 or height < 50; the check is the first statement of the
constructor, so on failure no generator state and no tile is ever written
(the model returns an error with no configuration, hence no grid). -/
theorem c9_init_validation (width height seed : ℕ) (mode : String) (octaves : ℕ)
    (persistence lacunarity scale : ℚ) (river_count : ℕ) (prevailing_wind : String) :
    (∃ msg, terrainGeneratorInit width height seed mode octaves persistence
        lacunarity scale river_count prevailing_wind = Except.error msg)
      ↔ (width < 50 ∨ height < 50) := by
  unfold terrainGeneratorInit
  by_cases h : width < 50 ∨ height < 50
  · simp [h]
  · simp [h]

/-! ## Biome classification (source lines 385-425) -/

/-- One biome rule: elevation band and optional moisture band.  The source
stores rules as dictionaries and reads absent bands with rule.get(key, [0,1]),
so an omitted moisture band is the full range. -/
structure BiomeRule where
  elevation : ℚ × ℚ := (0, 1)
  moisture : ℚ × ℚ := (0, 1)
deriving DecidableEq

/-- _load_biome_rules (source lines 396-408). -/
def loadBiomeRules : List (String × BiomeRule) :=
  [("deep_ocean",       ⟨(0, 3/10), (0, 1)⟩),
   ("ocean",            ⟨(3/10, 38/100), (0, 1)⟩),
   ("beach",            ⟨(38/100, 42/100), (0, 1)⟩),
   ("desert",           ⟨(42/100, 7/10), (0, 25/100)⟩),
   ("grassland",        ⟨(42/100, 7/10), (25/100, 6/10)⟩),
   ("temperate_forest", ⟨(42/100, 7/10), (6/10, 1)⟩),
   ("wetlands",         ⟨(42/100, 5/10), (7/10, 1)⟩),
   ("highland",         ⟨(7/10, 78/100), (0, 1)⟩),
   ("mountain",         ⟨(78/100, 1), (0, 1)⟩)]

/-- The priority order hard-coded in _determine_biome (lines 413-414). -/
def biomePriority : List String :=
  ["deep_ocean", "ocean", "beach", "mountain", "highland",
   "wetlands", "temperate_forest", "grassland", "desert"]

/-- Dictionary access rules[biome]; all priority names are present. -/
def lookupRule (rules : List (String × BiomeRule)) (name : String) : BiomeRule :=
  (((rules.find? (fun r => r.1 == name))).map (fun r => r.2)).getD ⟨(0,1),(0,1)⟩

/-- The matching test of _determine_biome: elevation in the half-open band
and moisture in the closed band. -/
def ruleMatches (rule : BiomeRule) (elevation moisture : ℚ) : Bool :=
  decide (rule.elevation.1 ≤ elevation ∧ elevation < rule.elevation.2 ∧
          rule.moisture.1 ≤ moisture ∧ moisture ≤ rule.moisture.2)

/-- _determine_biome (source lines 410-425): first matching rule in priority
order wins, otherwise the default grassland. -/
def determineBiome (elevation moisture : ℚ)
    (rules : List (String × BiomeRule)) : String :=
  ((biomePriority.find? (fun name =>
      ruleMatches (lookupRule rules name) elevation moisture))).getD "grassland"

/-- C10: at elevation exactly 1 no rule of the biome table matches, because
every rule's elevation band is half-open at its upper bound (mountain's being
[78/100, 1)), so the classifier returns the default grassland for every
moisture value. -/
theorem c10_elevation_one_defaults_to_grassland (m : ℚ) :
    (biomePriority.find? (fun name =>
        ruleMatches (lookupRule loadBiomeRules name) 1 m)) = none
    ∧ determineBiome 1 m loadBiomeRules = "grassland" := by
  have hall : ∀ name ∈ biomePriority,
      ¬(ruleMatches (lookupRule loadBiomeRules name) 1 m = true) := by
    intro name hn
    fin_cases hn <;>
      simp [ruleMatches, lookupRule, loadBiomeRules] <;>
      intros <;> norm_num at *
  have hnone := List.find?_eq_none.mpr hall
  exact ⟨hnone, by unfold determineBiome; rw [hnone]; rfl⟩

/-! ## Seeded random stream (self.rng = random.Random(seed)) -/

/-- Modelled from the spec: random.Random(seed) is a deterministic
pseudo-random stream entirely determined by the seed, advanced by every draw.
The stdlib Mersenne Twister is not part of this repository; it is modelled as
a counter-based hash stream. -/
structure Rng where
  seed : ℕ
  counter : ℕ
deriving DecidableEq

def Rng.next (r : Rng) : ℕ × Rng :=
  (((r.seed + 1) * 2654435761 + (r.counter + 1) * 40503) % 1000000007,
    ⟨r.seed, r.counter + 1⟩)

/-- rng.random(): a rational in [0,1). -/
def Rng.random (r : Rng) : ℚ × Rng :=
  let p := r.next
  (((p.1 % 1000000 : ℕ) : ℚ) / 1000000, p.2)

/-- rng.randint(a, b): an integer in [a, b]. -/
def Rng.randint (r : Rng) (a b : ℕ) : ℕ × Rng :=
  let p := r.next
  (a + p.1 % (b - a + 1), p.2)

/-- Modelled from the spec: rng.sample(population, k) draws k distinct
elements without replacement (raising ValueError when k exceeds the
population size, which _generate_rivers prevents by capping k at the
population size).  The draw is modelled as the first k population elements in
order; the theorems below use only that the result has at most k elements,
all members of the population, which holds for any without-replacement
draw. -/
def Rng.sample (r : Rng) (l : List (ℤ × ℤ)) (k : ℕ) : List (ℤ × ℤ) × Rng :=
  (l.take k, ⟨r.seed, r.counter + k⟩)

/-! ## The tile grid -/

/-- The 2D tile array self.tiles, modelled as a total function from
coordinates updated pointwise exactly where the source assigns; coordinates
outside the width x height rectangle are never read or written by the
source. -/
def Grid := ℤ → ℤ → Tile

/-- The placeholder state of a grid cell before assignment (None in the
source, never read before being written). -/
def placeholderTile : Tile :=
  { x := 0, y := 0, elevation := 1, moisture := 0, biome := "", water := false }

def initialGrid : Grid := fun _ _ => placeholderTile

/-- Single in-place assignment self.tiles[y][x] = t. -/
def setTile (g : Grid) (x y : ℤ) (t : Tile) : Grid :=
  fun a b => if a = x ∧ b = y then t else g a b

/-- Row-major traversal order of the two nested loops (y outer, x inner). -/
def rowMajor (w h : ℕ) : List (ℤ × ℤ) :=
  ((List.range h).map (fun y => (List.range w).map
      (fun x => (Int.ofNat x, Int.ofNat y)))).flatten

/-! ## Elevation synthesis (source lines 149-239) -/

/-- State of the octave loop: elevation, amplitude, frequency, max_value. -/
structure OctaveState where
  elevation : ℚ
  amplitude : ℚ
  frequency : ℚ
  max_value : ℚ
deriving DecidableEq

/-- One iteration of the octave loop (lines 162-171). -/
def octaveStep (noise : SimplexNoise) (c : Config) (x y : ℤ)
    (st : OctaveState) : OctaveState :=
  let sx := (x : ℚ) / c.scale * st.frequency
  let sy := (y : ℚ) / c.scale * st.frequency
  { elevation := st.elevation + noise.noise2d sx sy * st.amplitude,
    amplitude := st.amplitude * c.persistence,
    frequency := st.frequency * c.lacunarity,
    max_value := st.max_value + st.amplitude }

/-- The full octave loop, starting from (0, 1, 1, 0). -/
def octaveLoop (noise : SimplexNoise) (c : Config) (x y : ℤ) : OctaveState :=
  (List.range c.octaves).foldl (fun st _ => octaveStep noise c x y st)
    ⟨0, 1, 1, 0⟩

/-- Normalization and domain warping (lines 173-182): the blended elevation
before mode shaping. -/
def rawElevation (noise : SimplexNoise) (c : Config) (x y : ℤ) : ℚ :=
  let st := octaveLoop noise c x y
  let elevation0 := (st.elevation / st.max_value + 1) / 2
  let warp_x := (x:ℚ) + noise.noise2d ((x:ℚ) * (3/100)) ((y:ℚ) * (3/100)) * 10
  let warp_y := (y:ℚ) + noise.noise2d ((x:ℚ) * (3/100) + 100) ((y:ℚ) * (3/100) + 100) * 10
  let warp_noise := noise.noise2d (warp_x / c.scale) (warp_y / c.scale)
  elevation0 * (6/10) + ((warp_noise + 1) / 2) * (4/10)

/-- _apply_mode_shaping (lines 205-239).  The float square root is modelled
by the rational square-root approximation; only the archipelago and continent
branches use it, and no proved property depends on its numeric value. -/
def applyModeShaping (c : Config) (rng : Rng) (x y : ℤ) (elevation : ℚ) :
    ℚ × Rng :=
  if c.mode = "continent" then
    let center_x : ℚ := (c.width : ℚ) / 2
    let center_y : ℚ := (c.height : ℚ) / 2
    let dx := ((x:ℚ) - center_x) / ((c.width : ℚ) * (8/10))
    let dy := ((y:ℚ) - center_y) / ((c.height : ℚ) * (8/10))
    let distance := Rat.sqrt (dx * dx + dy * dy)
    let falloff := max 0 (1 - distance * distance * (8/10))
    (elevation * (3/10) + (elevation * falloff) * (7/10), rng)
  else if c.mode = "archipelago" then
    let p0 := rng.randint 0 3
    let island_count := 5 + p0.1
    let st := (List.range island_count).foldl (fun (acc : ℚ × Rng) _ =>
      let px := acc.2.random
      let py := px.2.random
      let island_x := px.1 * (c.width : ℚ)
      let island_y := py.1 * (c.height : ℚ)
      let dx := ((x:ℚ) - island_x) / (c.width : ℚ)
      let dy := ((y:ℚ) - island_y) / (c.height : ℚ)
      let distance := Rat.sqrt (dx * dx + dy * dy)
      let influence := max 0 (1 - distance * 3)
      (max acc.1 influence, py.2)) (0, p0.2)
    (elevation * st.1, st.2)
  else if c.mode = "highlands" then
    (1/2 + elevation * (1/2), rng)
  else
    (elevation, rng)

/-- The per-tile body of _generate_elevation (lines 154-203): raw noise,
shaping, the 1.5 boost for non-noop modes, clamping, and the water flag. -/
def elevationTile (c : Config) (noise : SimplexNoise) (rng : Rng)
    (x y : ℤ) : Tile × Rng :=
  let e0 := rawElevation noise c x y
  let p := applyModeShaping c rng x y e0
  let e2 := if c.mode ≠ "none" then p.1 * (3/2) else p.1
  let e3 := clamp01 e2
  ({ x := x, y := y, elevation := e3, moisture := 0, biome := "",
     water := decide (e3 < 2/5) }, p.2)

/-- _generate_elevation (lines 149-203): row-major fill of the grid,
threading the shared rng (consumed only by archipelago shaping). -/
def generateElevation (c : Config) (noise : SimplexNoise) (rng : Rng) :
    Grid × Rng :=
  (rowMajor c.width c.height).foldl (fun (acc : Grid × Rng) p =>
    let tr := elevationTile c noise acc.2 p.1 p.2
    (setTile acc.1 p.1 p.2 tr.1, tr.2)) (initialGrid, rng)

/-! ## Hydrology (source lines 241-323) -/

/-- _get_neighbors (lines 316-323): 4-directional neighbors in the fixed
order (x,y+1),(x+1,y),(x,y-1),(x-1,y), keeping the in-bounds ones. -/
def getNeighbors (w h : ℕ) (x y : ℤ) : List (ℤ × ℤ) :=
  ([(x, y+1), (x+1, y), (x, y-1), (x-1, y)]).filter
    (fun p => decide (0 ≤ p.1 ∧ p.1 < (w:ℤ) ∧ 0 ≤ p.2 ∧ p.2 < (h:ℤ)))

/-- The neighbor-scanning loop of _trace_river_path (lines 298-304): running
state (lowest, lowest_elevation), visited neighbors skipped, strict-minimum
updates. -/
def selectLowest (g : Grid) (visited : List (ℤ × ℤ)) :
    List (ℤ × ℤ) → Option (ℤ × ℤ) × ℚ → Option (ℤ × ℤ) × ℚ
  | [], acc => acc
  | p :: rest, acc =>
    if p ∈ visited then selectLowest g visited rest acc
    else if (g p.1 p.2).elevation < acc.2 then
      selectLowest g visited rest (some p, (g p.1 p.2).elevation)
    else selectLowest g visited rest acc

/-- The while-loop of _trace_river_path (lines 285-312), with the iteration
cap as fuel. -/
def traceAux (g : Grid) (w h : ℕ) :
    ℕ → ℤ × ℤ → List (ℤ × ℤ) → List (ℤ × ℤ) → List (ℤ × ℤ)
  | 0, _, path, _ => path
  | fuel + 1, c, path, visited =>
    if (g c.1 c.2).water then path
    else
      match (selectLowest g visited (getNeighbors w h c.1 c.2)
          (none, (g c.1 c.2).elevation)).1 with
      | none => path
      | some p => traceAux g w h fuel p (path ++ [p]) (p :: visited)

/-- _trace_river_path (lines 276-314): path and visited set both start with
the source; at most width*height iterations. -/
def traceRiverPath (g : Grid) (w h : ℕ) (sx sy : ℤ) : List (ℤ × ℤ) :=
  traceAux g w h (w * h) (sx, sy) [(sx, sy)] [(sx, sy)]

/-- Source collection of _generate_rivers (lines 244-249): non-water tiles
with elevation above 0.7, in row-major scan order. -/
def riverSources (g : Grid) (w h : ℕ) : List (ℤ × ℤ) :=
  (rowMajor w h).filter (fun p =>
    decide ((7:ℚ)/10 < (g p.1 p.2).elevation) && !(g p.1 p.2).water)

/-- Lines 252-255: cap the requested count at the number of sources. -/
def actualRiverCount (river_count : ℕ) (sources : List (ℤ × ℤ)) : ℕ :=
  if sources.length < river_count then sources.length else river_count

/-- The id format river_xxx with the index zero-padded to three digits. -/
def riverId (n : ℕ) : String :=
  if n < 10 then "river_00" ++ toString n
  else if n < 100 then "river_0" ++ toString n
  else "river_" ++ toString n

/-- Construction of one River record (lines 263-269): mouth is the last path
entry (the path is never empty, it contains the source). -/
def mkRiver (idx : ℕ) (s : ℤ × ℤ) (path : List (ℤ × ℤ)) : River :=
  { id := riverId idx, source := s, mouth := path.getLast?.getD s,
    path := path, length := path.length }

/-- Marking loop (lines 272-274): set river = true on every path tile. -/
def markRiverTiles (g : Grid) (path : List (ℤ × ℤ)) : Grid :=
  path.foldl (fun acc p =>
    setTile acc p.1 p.2 { acc p.1 p.2 with river := true }) g

/-- The per-source loop body of _generate_rivers (lines 260-274): trace, keep
if the path exceeds 10 tiles, and mark the kept path. -/
def riverLoop (w h : ℕ) (acc : List River × Grid) (ip : ℕ × (ℤ × ℤ)) :
    List River × Grid :=
  let path := traceRiverPath acc.2 w h ip.2.1 ip.2.2
  if 10 < path.length then
    (acc.1 ++ [mkRiver ip.1 ip.2 path], markRiverTiles acc.2 path)
  else acc

/-- _generate_rivers (lines 241-274). -/
def generateRivers (c : Config) (g : Grid) (rng : Rng) :
    List River × Grid × Rng :=
  let sources := riverSources g c.width c.height
  let actual := actualRiverCount c.river_count sources
  let sel := rng.sample sources actual
  let out := sel.1.enum.foldl (riverLoop c.width c.height) ([], g)
  (out.1, out.2, sel.2)

/-! ## Climate (source lines 325-383) -/

/-- The search window of _distance_to_water: radius 40, dy outer, dx inner. -/
def searchWindow : List (ℤ × ℤ) :=
  ((List.range 81).map (fun dyi => (List.range 81).map (fun dxi =>
      (Int.ofNat dyi - 40, Int.ofNat dxi - 40)))).flatten

/-- _distance_to_water (lines 347-362): bounded Manhattan-distance scan over
the window; float('inf') is the none state of the running minimum, and the
search radius is returned when nothing wet is in the window. -/
def distanceToWater (g : Grid) (w h : ℕ) (x y : ℤ) : ℚ :=
  let best := searchWindow.foldl (fun (acc : Option ℚ) d =>
    let nx := x + d.2
    let ny := y + d.1
    if 0 ≤ nx ∧ nx < (w:ℤ) ∧ 0 ≤ ny ∧ ny < (h:ℤ) then
      if (g nx ny).water || (g nx ny).river then
        some (match acc with
          | none => ((d.2.natAbs + d.1.natAbs : ℕ) : ℚ)
          | some m => min m ((d.2.natAbs + d.1.natAbs : ℕ) : ℚ))
      else acc
    else acc) none
  match best with
  | none => 40
  | some m => m

/-- The wind_direction dictionary with its default (lines 366-367). -/
def windDirection (wind : String) : ℤ × ℤ :=
  if wind = "west" then (-1, 0)
  else if wind = "east" then (1, 0)
  else if wind = "north" then (0, -1)
  else if wind = "south" then (0, 1)
  else (-1, 0)

/-- _calculate_rain_shadow (lines 364-383): scan upwind offsets 1..14
(range(1, 15) in the source), taking the maximum blocking among in-bounds
tiles with elevation above 0.7. -/
def calculateRainShadow (g : Grid) (w h : ℕ) (wind : String) (x y : ℤ) : ℚ :=
  let d := windDirection wind
  (List.range' 1 14).foldl (fun maxb i =>
    let cx := x + d.1 * Int.ofNat i
    let cy := y + d.2 * Int.ofNat i
    if 0 ≤ cx ∧ cx < (w:ℤ) ∧ 0 ≤ cy ∧ cy < (h:ℤ) then
      if (7:ℚ)/10 < (g cx cy).elevation then
        max maxb (((g cx cy).elevation - 7/10) * (1/2))
      else maxb
    else maxb) 0

/-- The per-tile body of _calculate_moisture (lines 327-345). -/
def moistureAt (c : Config) (g : Grid) (x y : ℤ) : ℚ :=
  let water_distance := distanceToWater g c.width c.height x y
  let water_moisture := max 0 (1 - water_distance / 30)
  let elevation_moisture := (g x y).elevation * (3/10)
  let rain_shadow := calculateRainShadow g c.width c.height c.prevailing_wind x y
  clamp01 (water_moisture + elevation_moisture - rain_shadow)

/-- _calculate_moisture (lines 325-345).  The loop writes only moisture and
reads only water, river and elevation, so the in-place row-major update
equals this pointwise snapshot update. -/
def calculateMoisture (c : Config) (g : Grid) : Grid :=
  fun x y => { g x y with moisture := moistureAt c g x y }

/-- _assign_biomes (lines 385-394): pure per-tile classification; writes only
biome and reads only elevation and moisture. -/
def assignBiomes (g : Grid) : Grid :=
  fun x y =>
    { g x y with
      biome := determineBiome (g x y).elevation (g x y).moisture loadBiomeRules }

/-! ## Orchestration (generate, lines 123-147) -/

/-- The terrain artifact: the finished grid and the kept rivers.  Step 5
(features) always returns empty lists and _to_dict serializes these fields
unchanged apart from 3-decimal rounding of the two float fields. -/
structure Output where
  tiles : Grid
  rivers : List River

/-- Steps 2-4 of generate, from a finished elevation grid: rivers, then
moisture, then biomes. -/
def pipelineFromGrid (c : Config) (g : Grid) (rng : Rng) : Output :=
  let out := generateRivers c g rng
  { tiles := assignBiomes (calculateMoisture c out.2.1), rivers := out.1 }

/-- generate (lines 123-147): elevation synthesis (step 1) followed by the
rest of the pipeline; self.rng and self.noise are both seeded with the
constructor seed. -/
def generate (c : Config) : Output :=
  let noise := mkSimplexNoise c.seed
  let p := generateElevation c noise ⟨c.seed, 0⟩
  pipelineFromGrid c p.1 p.2

/-! ## Bounds on the elevation synthesis -/

/-- The first n iterations of the octave loop (proof scaffolding for
induction over the octave count). -/
def octaveIter (noise : SimplexNoise) (c : Config) (x y : ℤ) (n : ℕ) :
    OctaveState :=
  (List.range n).foldl (fun st _ => octaveStep noise c x y st) ⟨0, 1, 1, 0⟩

theorem octaveLoop_eq_iter (noise : SimplexNoise) (c : Config) (x y : ℤ) :
    octaveLoop noise c x y = octaveIter noise c x y c.octaves := rfl

theorem octaveIter_succ (noise : SimplexNoise) (c : Config) (x y : ℤ) (n : ℕ) :
    octaveIter noise c x y (n + 1)
      = octaveStep noise c x y (octaveIter noise c x y n) := by
  unfold octaveIter
  rw [List.range_succ, List.foldl_append]
  rfl

/-- Invariant of one octave step: the accumulated elevation stays within the
accumulated total amplitude, and amplitude and frequency stay positive. -/
theorem octaveStep_inv (noise : SimplexNoise) (c : Config) {x y : ℤ}
    (hx : 0 ≤ x) (hy : 0 ≤ y) (hscale : 0 < c.scale)
    (hpers : 0 < c.persistence) (hlac : 0 < c.lacunarity)
    {st : OctaveState} (he : |st.elevation| ≤ st.max_value)
    (ha : 0 < st.amplitude) (hf : 0 < st.frequency) :
    |(octaveStep noise c x y st).elevation|
        ≤ (octaveStep noise c x y st).max_value
    ∧ 0 < (octaveStep noise c x y st).amplitude
    ∧ 0 < (octaveStep noise c x y st).frequency
    ∧ (octaveStep noise c x y st).max_value = st.max_value + st.amplitude := by
  have hxq : (0:ℚ) ≤ (x:ℚ) := by exact_mod_cast hx
  have hyq : (0:ℚ) ≤ (y:ℚ) := by exact_mod_cast hy
  have hsx : 0 ≤ (x:ℚ) / c.scale * st.frequency :=
    mul_nonneg (div_nonneg hxq (le_of_lt hscale)) (le_of_lt hf)
  have hsy : 0 ≤ (y:ℚ) / c.scale * st.frequency :=
    mul_nonneg (div_nonneg hyq (le_of_lt hscale)) (le_of_lt hf)
  obtain ⟨hn1, hn2⟩ := noise2d_range noise hsx hsy
  unfold octaveStep
  refine ⟨?_, mul_pos ha hpers, mul_pos hf hlac, rfl⟩
  simp only
  calc |st.elevation + noise.noise2d ((x:ℚ) / c.scale * st.frequency)
          ((y:ℚ) / c.scale * st.frequency) * st.amplitude|
      ≤ |st.elevation| + |noise.noise2d ((x:ℚ) / c.scale * st.frequency)
          ((y:ℚ) / c.scale * st.frequency) * st.amplitude| := abs_add _ _
    _ ≤ st.max_value + st.amplitude := by
        rw [abs_mul, abs_of_pos ha]
        have habs : |noise.noise2d ((x:ℚ) / c.scale * st.frequency)
            ((y:ℚ) / c.scale * st.frequency)| ≤ 1 := abs_le.mpr ⟨hn1, hn2⟩
        nlinarith

/-- Invariants of the whole octave loop after n iterations. -/
theorem octaveIter_bounds (noise : SimplexNoise) (c : Config) {x y : ℤ}
    (hx : 0 ≤ x) (hy : 0 ≤ y) (hscale : 0 < c.scale)
    (hpers : 0 < c.persistence) (hlac : 0 < c.lacunarity) (n : ℕ) :
    |(octaveIter noise c x y n).elevation| ≤ (octaveIter noise c x y n).max_value
    ∧ 0 < (octaveIter noise c x y n).amplitude
    ∧ 0 < (octaveIter noise c x y n).frequency
    ∧ (1 ≤ n → 1 ≤ (octaveIter noise c x y n).max_value) := by
  induction n with
  | zero =>
      refine ⟨?_, ?_, ?_, ?_⟩ <;> simp [octaveIter]
  | succ k ih =>
      obtain ⟨he, ha, hf, hm⟩ := ih
      obtain ⟨he2, ha2, hf2, hm2⟩ :=
        octaveStep_inv noise c hx hy hscale hpers hlac he ha hf
      rw [octaveIter_succ]
      refine ⟨he2, ha2, hf2, fun _ => ?_⟩
      rw [hm2]
      rcases Nat.eq_zero_or_pos k with hk | hk
      · subst hk
        simp [octaveIter]
      · have := hm hk
        linarith

/-- The normalized multi-octave elevation lies in [0,1] when at least one
octave is summed. -/
theorem elevationZero_bounds (noise : SimplexNoise) (c : Config) {x y : ℤ}
    (hx : 0 ≤ x) (hy : 0 ≤ y) (hoct : 1 ≤ c.octaves) (hscale : 0 < c.scale)
    (hpers : 0 < c.persistence) (hlac : 0 < c.lacunarity) :
    0 ≤ ((octaveLoop noise c x y).elevation / (octaveLoop noise c x y).max_value + 1) / 2
    ∧ ((octaveLoop noise c x y).elevation / (octaveLoop noise c x y).max_value + 1) / 2 ≤ 1 := by
  obtain ⟨he, -, -, hm⟩ := octaveIter_bounds noise c hx hy hscale hpers hlac c.octaves
  rw [octaveLoop_eq_iter]
  have hm1 : 1 ≤ (octaveIter noise c x y c.octaves).max_value := hm hoct
  have hm0 : 0 < (octaveIter noise c x y c.octaves).max_value := by linarith
  have hdiv : |(octaveIter noise c x y c.octaves).elevation
      / (octaveIter noise c x y c.octaves).max_value| ≤ 1 := by
    rw [abs_div, abs_of_pos hm0]
    rw [div_le_one hm0]
    exact he
  obtain ⟨hd1, hd2⟩ := abs_le.mp hdiv
  constructor <;> linarith

/-- Lower bound for the blended elevation entering mode shaping: with scale
at least 100 the domain-warped sample coordinates stay above -1/10, so the
warped noise stays above -5/2 and the blend above -3/10. -/
theorem rawElevation_lb (noise : SimplexNoise) (c : Config) {x y : ℤ}
    (hx : 0 ≤ x) (hy : 0 ≤ y) (hoct : 1 ≤ c.octaves) (hscale : 100 ≤ c.scale)
    (hpers : 0 < c.persistence) (hlac : 0 < c.lacunarity) :
    -(3/10) ≤ rawElevation noise c x y := by
  have hscale0 : (0:ℚ) < c.scale := by linarith
  have hxq : (0:ℚ) ≤ (x:ℚ) := by exact_mod_cast hx
  have hyq : (0:ℚ) ≤ (y:ℚ) := by exact_mod_cast hy
  obtain ⟨he0, he1⟩ := elevationZero_bounds noise c hx hy hoct hscale0 hpers hlac
  have hn1 := noise2d_range noise (x := (x:ℚ) * (3/100)) (y := (y:ℚ) * (3/100))
    (by positivity) (by positivity)
  have hn2 := noise2d_range noise (x := (x:ℚ) * (3/100) + 100)
    (y := (y:ℚ) * (3/100) + 100) (by positivity) (by positivity)
  have hwx : -(10:ℚ) ≤ (x:ℚ) + noise.noise2d ((x:ℚ) * (3/100)) ((y:ℚ) * (3/100)) * 10 := by
    nlinarith [hn1.1]
  have hwy : -(10:ℚ) ≤ (y:ℚ) + noise.noise2d ((x:ℚ) * (3/100) + 100) ((y:ℚ) * (3/100) + 100) * 10 := by
    nlinarith [hn2.1]
  have hkey : ∀ w : ℚ, -(10:ℚ) ≤ w → -(1/10) ≤ w / c.scale := by
    intro w hw
    have h1 : (-10:ℚ) / c.scale ≤ w / c.scale := by
      rw [div_le_div_iff_of_pos_right hscale0]
      linarith
    have h2 : -(1/10) ≤ (-10:ℚ) / c.scale := by
      rw [neg_le, ← neg_div]
      rw [div_le_div_iff₀ hscale0 (by norm_num : (0:ℚ) < 10)]
      linarith
    linarith
  have hwn := noise2d_warp_range noise (hkey _ hwx) (hkey _ hwy)
  unfold rawElevation
  simp only
  nlinarith [hwn.1]

/-- Highlands shaping sends any blended elevation of at least -3/10 to a
final clamped elevation of at least 21/40, which is above the water
threshold 2/5: the produced tile is land. -/
theorem elevationTile_highlands (c : Config) (noise : SimplexNoise) (rng : Rng)
    {x y : ℤ} (hx : 0 ≤ x) (hy : 0 ≤ y) (hmode : c.mode = "highlands")
    (hoct : 1 ≤ c.octaves) (hscale : 100 ≤ c.scale)
    (hpers : 0 < c.persistence) (hlac : 0 < c.lacunarity) :
    (elevationTile c noise rng x y).1.water = false
    ∧ (2:ℚ)/5 ≤ (elevationTile c noise rng x y).1.elevation := by
  have hraw := rawElevation_lb noise c hx hy hoct hscale hpers hlac
  have hshape : applyModeShaping c rng x y (rawElevation noise c x y)
      = (1/2 + rawElevation noise c x y * (1/2), rng) := by
    unfold applyModeShaping
    rw [if_neg (by rw [hmode]; decide), if_neg (by rw [hmode]; decide), if_pos hmode]
  have hnotnone : (c.mode ≠ "none") = True := by
    simp [hmode]
  have helev : (elevationTile c noise rng x y).1.elevation
      = clamp01 ((1/2 + rawElevation noise c x y * (1/2)) * (3/2)) := by
    simp only [elevationTile, hshape]
    simp [hmode]
  have hbig : (2:ℚ)/5 ≤ clamp01 ((1/2 + rawElevation noise c x y * (1/2)) * (3/2)) := by
    unfold clamp01
    have h1 : (21:ℚ)/40 ≤ (1/2 + rawElevation noise c x y * (1/2)) * (3/2) := by
      nlinarith
    have h2 : (21:ℚ)/40 ≤ min 1 ((1/2 + rawElevation noise c x y * (1/2)) * (3/2)) :=
      le_min (by norm_num) h1
    calc (2:ℚ)/5 ≤ 21/40 := by norm_num
      _ ≤ min 1 ((1/2 + rawElevation noise c x y * (1/2)) * (3/2)) := h2
      _ ≤ max 0 (min 1 ((1/2 + rawElevation noise c x y * (1/2)) * (3/2))) :=
          le_max_right _ _
  refine ⟨?_, by rw [helev]; exact hbig⟩
  have hwater : (elevationTile c noise rng x y).1.water
      = decide ((elevationTile c noise rng x y).1.elevation < 2/5) := by
    simp only [elevationTile, hshape]
  rw [hwater, helev]
  rw [decide_eq_false_iff_not]
  rw [not_lt]
  exact hbig

/-! ## Grid invariants and stage preservation -/

/-- Two grids agreeing on the elevation and water fields everywhere: the
fields frozen at the end of elevation synthesis. -/
def agreeEW (g1 g2 : Grid) : Prop :=
  ∀ x y, (g1 x y).elevation = (g2 x y).elevation
    ∧ (g1 x y).water = (g2 x y).water

theorem agreeEW_refl (g : Grid) : agreeEW g g := fun _ _ => ⟨rfl, rfl⟩

theorem agreeEW_trans {g1 g2 g3 : Grid} (h12 : agreeEW g1 g2)
    (h23 : agreeEW g2 g3) : agreeEW g1 g3 := by
  intro x y
  exact ⟨(h12 x y).1.trans (h23 x y).1, (h12 x y).2.trans (h23 x y).2⟩

/-- Each elevation-stage tile is built with water = (elevation < 2/5). -/
theorem elevationTile_water_def (c : Config) (noise : SimplexNoise) (rng : Rng)
    (x y : ℤ) :
    (elevationTile c noise rng x y).1.water
      = decide ((elevationTile c noise rng x y).1.elevation < 2/5) := rfl

/-- Coordinates enumerated by the row-major traversal are nonnegative. -/
theorem rowMajor_nonneg (w h : ℕ) : ∀ p ∈ rowMajor w h, 0 ≤ p.1 ∧ 0 ≤ p.2 := by
  intro p hp
  unfold rowMajor at hp
  rw [List.mem_flatten] at hp
  obtain ⟨l, hl, hpl⟩ := hp
  rw [List.mem_map] at hl
  obtain ⟨yy, hy, rfl⟩ := hl
  rw [List.mem_map] at hpl
  obtain ⟨xx, hx, rfl⟩ := hpl
  exact ⟨by simp, by simp⟩

/-- Fold invariant of the elevation fill: any per-tile property of the
elevation construction that holds of the placeholder holds of every cell of
the resulting grid. -/
theorem generateElevation_inv (c : Config) (noise : SimplexNoise)
    (P : Tile → Prop) (hP0 : P placeholderTile)
    (hP : ∀ rng : Rng, ∀ x y : ℤ, 0 ≤ x → 0 ≤ y →
      P (elevationTile c noise rng x y).1) :
    ∀ rng : Rng, ∀ x y : ℤ, P ((generateElevation c noise rng).1 x y) := by
  have main : ∀ (l : List (ℤ × ℤ)), (∀ p ∈ l, 0 ≤ p.1 ∧ 0 ≤ p.2) →
      ∀ acc : Grid × Rng, (∀ x y, P (acc.1 x y)) →
      ∀ x y, P ((l.foldl (fun (acc : Grid × Rng) p =>
        let tr := elevationTile c noise acc.2 p.1 p.2
        (setTile acc.1 p.1 p.2 tr.1, tr.2)) acc).1 x y) := by
    intro l
    induction l with
    | nil => intro _ acc hacc x y; exact hacc x y
    | cons p rest ih =>
        intro hco acc hacc x y
        simp only [List.foldl_cons]
        apply ih (fun q hq => hco q (List.mem_cons_of_mem _ hq))
        intro a b
        simp only [setTile]
        by_cases hab : a = p.1 ∧ b = p.2
        · rw [if_pos hab]
          exact hP acc.2 p.1 p.2 (hco p (List.mem_cons_self _ _)).1
            (hco p (List.mem_cons_self _ _)).2
        · rw [if_neg hab]
          exact hacc a b
  intro rng x y
  exact main (rowMajor c.width c.height) (rowMajor_nonneg c.width c.height)
    (initialGrid, rng) (fun _ _ => hP0) x y

/-- Marking river tiles changes only the river flag. -/
theorem markRiverTiles_agree (path : List (ℤ × ℤ)) :
    ∀ g : Grid, agreeEW (markRiverTiles g path) g := by
  induction path with
  | nil => intro g; exact agreeEW_refl g
  | cons p rest ih =>
      intro g
      have hstep : agreeEW (setTile g p.1 p.2 { g p.1 p.2 with river := true }) g := by
        intro x y
        simp only [setTile]
        by_cases hab : x = p.1 ∧ y = p.2
        · rw [if_pos hab]
          obtain ⟨h1, h2⟩ := hab
          subst h1; subst h2
          exact ⟨rfl, rfl⟩
        · rw [if_neg hab]
          exact ⟨rfl, rfl⟩
      have : markRiverTiles g (p :: rest)
          = markRiverTiles (setTile g p.1 p.2 { g p.1 p.2 with river := true }) rest := rfl
      rw [this]
      exact agreeEW_trans (ih _) hstep

/-- The river stage changes only river flags: elevation and water agree with
the incoming grid. -/
theorem riverFold_agree (w h : ℕ) :
    ∀ (l : List (ℕ × (ℤ × ℤ))) (acc : List River × Grid),
      agreeEW (l.foldl (riverLoop w h) acc).2 acc.2 := by
  intro l
  induction l with
  | nil => intro acc; exact agreeEW_refl _
  | cons ip rest ih =>
      intro acc
      simp only [List.foldl_cons]
      unfold riverLoop
      by_cases hkeep : 10 < (traceRiverPath acc.2 w h ip.2.1 ip.2.2).length
      · rw [if_pos hkeep]
        exact agreeEW_trans (ih _) (markRiverTiles_agree _ _)
      · rw [if_neg hkeep]
        exact ih acc

theorem generateRivers_agree (c : Config) (g : Grid) (rng : Rng) :
    agreeEW (generateRivers c g rng).2.1 g := by
  unfold generateRivers
  exact riverFold_agree c.width c.height _ ([], g)

theorem calculateMoisture_agree (c : Config) (g : Grid) :
    agreeEW (calculateMoisture c g) g := fun _ _ => ⟨rfl, rfl⟩

theorem assignBiomes_agree (g : Grid) :
    agreeEW (assignBiomes g) g := fun _ _ => ⟨rfl, rfl⟩

/-- The whole pipeline after elevation synthesis preserves elevation and
water at every coordinate. -/
theorem pipelineFromGrid_agree (c : Config) (g : Grid) (rng : Rng) :
    agreeEW (pipelineFromGrid c g rng).tiles g := by
  unfold pipelineFromGrid
  exact agreeEW_trans (agreeEW_trans (assignBiomes_agree _)
    (calculateMoisture_agree c _)) (generateRivers_agree c g rng)

/-- C2: in the output of generate, every tile satisfies
water = (elevation < 2/5), and both fields are exactly the values set when
elevation synthesis completed: the hydrology, climate and biome stages touch
only the river, moisture and biome fields. -/
theorem c2_water_elevation_consistency (c : Config) (x y : ℤ) :
    ((generate c).tiles x y).water
      = decide (((generate c).tiles x y).elevation < 2/5)
    ∧ ((generate c).tiles x y).elevation
      = ((generateElevation c (mkSimplexNoise c.seed) ⟨c.seed, 0⟩).1 x y).elevation
    ∧ ((generate c).tiles x y).water
      = ((generateElevation c (mkSimplexNoise c.seed) ⟨c.seed, 0⟩).1 x y).water := by
  have hag : agreeEW (generate c).tiles
      (generateElevation c (mkSimplexNoise c.seed) ⟨c.seed, 0⟩).1 := by
    unfold generate
    exact pipelineFromGrid_agree c _ _
  have hW : ∀ a b : ℤ,
      ((generateElevation c (mkSimplexNoise c.seed) ⟨c.seed, 0⟩).1 a b).water
        = decide (((generateElevation c (mkSimplexNoise c.seed) ⟨c.seed, 0⟩).1 a b).elevation < 2/5) := by
    intro a b
    exact generateElevation_inv c (mkSimplexNoise c.seed)
      (fun t => t.water = decide (t.elevation < 2/5))
      (by unfold placeholderTile; norm_num)
      (fun rng x y _ _ => elevationTile_water_def c _ rng x y) _ a b
  obtain ⟨hE, hWa⟩ := hag x y
  refine ⟨?_, hE, hWa⟩
  rw [hWa, hE]
  exact hW x y

/-- C7 (amended): in highlands mode with scale at least 100 (the default),
at least one octave, and positive persistence and lacunarity, every tile of
the generated grid is land: the shaped elevation 1/2 + e/2, boosted by 3/2
and clamped, stays at or above 21/40 > 2/5, so water is false everywhere;
the later stages never change the water flag.  The scale bound is needed:
below it the warped sample coordinates drop under -1/10 where the noise
escapes [-1, 1] and a highlands tile can clamp below the threshold (see the
counterexample). -/
theorem c7_highlands_no_water (c : Config) (hmode : c.mode = "highlands")
    (hoct : 1 ≤ c.octaves) (hscale : 100 ≤ c.scale)
    (hpers : 0 < c.persistence) (hlac : 0 < c.lacunarity) :
    ∀ x y : ℤ, ((generate c).tiles x y).water = false := by
  intro x y
  have hag : agreeEW (generate c).tiles
      (generateElevation c (mkSimplexNoise c.seed) ⟨c.seed, 0⟩).1 := by
    unfold generate
    exact pipelineFromGrid_agree c _ _
  rw [(hag x y).2]
  exact generateElevation_inv c (mkSimplexNoise c.seed)
    (fun t => t.water = false) rfl
    (fun rng a b ha hb =>
      (elevationTile_highlands c (mkSimplexNoise c.seed) rng ha hb hmode
        hoct hscale hpers hlac).1) _ x y

/-- C7 witness: the default highlands configuration of the command line
(width 80, height 60, seed 3, octaves 5, persistence 1/2, lacunarity 2,
scale 100, 8 rivers, west wind) has no water tile, here checked at the
origin. -/
theorem c7_highlands_witness :
    ((generate ⟨80, 60, 3, "highlands", 5, 1/2, 2, 100, 8, "west"⟩).tiles 0 0).water
      = false :=
  c7_highlands_no_water ⟨80, 60, 3, "highlands", 5, 1/2, 2, 100, 8, "west"⟩
    rfl (by norm_num) (by norm_num) (by norm_num) (by norm_num) 0 0

/-! ## Characterization of the downhill selection step -/

/-- Specification selector: among the candidates, in enumeration order, the
first one achieving the minimum elevation strictly below e. -/
def firstMinBelow (g : Grid) : ℚ → List (ℤ × ℤ) → Option (ℤ × ℤ)
  | _, [] => none
  | e, p :: rest =>
    if (g p.1 p.2).elevation < e then
      match firstMinBelow g ((g p.1 p.2).elevation) rest with
      | some q => some q
      | none => some p
    else firstMinBelow g e rest

/-- The source's running-minimum loop equals the specification selector on
the unvisited candidates, falling back to the initial accumulator when no
candidate is strictly lower. -/
theorem selectLowest_eq_firstMinBelow (g : Grid) (visited : List (ℤ × ℤ)) :
    ∀ (l : List (ℤ × ℤ)) (b : Option (ℤ × ℤ)) (e : ℚ),
      (selectLowest g visited l (b, e)).1
        = match firstMinBelow g e (l.filter (fun p => !decide (p ∈ visited))) with
          | some q => some q
          | none => b := by
  intro l
  induction l with
  | nil => intro b e; rfl
  | cons p rest ih =>
      intro b e
      by_cases hv : p ∈ visited
      · have h1 : selectLowest g visited (p :: rest) (b, e)
            = selectLowest g visited rest (b, e) := by
          unfold selectLowest
          rw [if_pos hv]
          cases rest <;> rfl
        have h2 : (p :: rest).filter (fun q => !decide (q ∈ visited))
            = rest.filter (fun q => !decide (q ∈ visited)) := by
          rw [List.filter_cons_of_neg]
          simp [hv]
        rw [h1, h2]
        exact ih b e
      · have h2 : (p :: rest).filter (fun q => !decide (q ∈ visited))
            = p :: rest.filter (fun q => !decide (q ∈ visited)) := by
          rw [List.filter_cons_of_pos]
          simp [hv]
        rw [h2]
        by_cases hlt : (g p.1 p.2).elevation < e
        · have h1 : selectLowest g visited (p :: rest) (b, e)
              = selectLowest g visited rest (some p, (g p.1 p.2).elevation) := by
            unfold selectLowest
            rw [if_neg hv, if_pos hlt]
            cases rest <;> rfl
          rw [h1, ih (some p) ((g p.1 p.2).elevation)]
          simp only [firstMinBelow, if_pos hlt]
          cases firstMinBelow g ((g p.1 p.2).elevation)
              (rest.filter (fun q => !decide (q ∈ visited))) <;> rfl
        · have h1 : selectLowest g visited (p :: rest) (b, e)
              = selectLowest g visited rest (b, e) := by
            unfold selectLowest
            rw [if_neg hv, if_neg hlt]
            cases rest <;> rfl
          rw [h1, ih b e]
          simp only [firstMinBelow, if_neg hlt]

/-- The selector returns nothing exactly when no candidate is strictly
lower. -/
theorem firstMinBelow_none (g : Grid) :
    ∀ (l : List (ℤ × ℤ)) (e : ℚ),
      firstMinBelow g e l = none ↔ ∀ p ∈ l, ¬((g p.1 p.2).elevation < e) := by
  intro l
  induction l with
  | nil =>
      intro e
      simp [firstMinBelow]
  | cons p rest ih =>
      intro e
      by_cases hlt : (g p.1 p.2).elevation < e
      · simp only [firstMinBelow, if_pos hlt]
        constructor
        · intro h
          cases hfm : firstMinBelow g ((g p.1 p.2).elevation) rest <;>
            rw [hfm] at h <;> simp at h
        · intro h
          exact absurd hlt (h p (List.mem_cons_self _ _))
      · simp only [firstMinBelow, if_neg hlt]
        rw [ih e]
        constructor
        · intro h q hq
          rcases List.mem_cons.mp hq with rfl | hq2
          · exact hlt
          · exact h q hq2
        · intro h q hq
          exact h q (List.mem_cons_of_mem _ hq)

/-- Whatever the selector returns is an unbeaten strictly-lower candidate:
it is in the list, strictly below e, and no strictly-lower candidate has a
smaller elevation. -/
theorem firstMinBelow_some (g : Grid) :
    ∀ (l : List (ℤ × ℤ)) (e : ℚ) (q : ℤ × ℤ), firstMinBelow g e l = some q →
      q ∈ l ∧ (g q.1 q.2).elevation < e
      ∧ ∀ r ∈ l, (g r.1 r.2).elevation < e →
          (g q.1 q.2).elevation ≤ (g r.1 r.2).elevation := by
  intro l
  induction l with
  | nil =>
      intro e q h
      simp [firstMinBelow] at h
  | cons p rest ih =>
      intro e q h
      by_cases hlt : (g p.1 p.2).elevation < e
      · simp only [firstMinBelow, if_pos hlt] at h
        cases hfm : firstMinBelow g ((g p.1 p.2).elevation) rest with
        | some q2 =>
            rw [hfm] at h
            simp at h
            subst h
            obtain ⟨hm, hlt2, hmin⟩ := ih ((g p.1 p.2).elevation) q2 hfm
            refine ⟨List.mem_cons_of_mem _ hm, lt_trans hlt2 hlt, ?_⟩
            intro r hr hre
            rcases List.mem_cons.mp hr with rfl | hr2
            · linarith
            · by_cases hrp : (g r.1 r.2).elevation < (g p.1 p.2).elevation
              · exact hmin r hr2 hrp
              · linarith
        | none =>
            rw [hfm] at h
            simp at h
            subst h
            have hall := (firstMinBelow_none g rest ((g p.1 p.2).elevation)).mp hfm
            refine ⟨List.mem_cons_self _ _, hlt, ?_⟩
            intro r hr hre
            rcases List.mem_cons.mp hr with rfl | hr2
            · exact le_refl _
            · exact not_lt.mp (hall r hr2)
      · simp only [firstMinBelow, if_neg hlt] at h
        obtain ⟨hm, hlt2, hmin⟩ := ih e q h
        refine ⟨List.mem_cons_of_mem _ hm, hlt2, ?_⟩
        intro r hr hre
        rcases List.mem_cons.mp hr with rfl | hr2
        · exact absurd hre hlt
        · exact hmin r hr2 hre

/-- The selector picks the first candidate achieving the minimum: every
earlier-enumerated candidate has strictly greater elevation (ties are won by
the earlier candidate, so nothing before the result can tie it). -/
theorem firstMinBelow_first (g : Grid) :
    ∀ (l : List (ℤ × ℤ)) (e : ℚ) (q : ℤ × ℤ), firstMinBelow g e l = some q →
      ∃ l1 l2, l = l1 ++ q :: l2
        ∧ ∀ r ∈ l1, (g q.1 q.2).elevation < (g r.1 r.2).elevation := by
  intro l
  induction l with
  | nil =>
      intro e q h
      simp [firstMinBelow] at h
  | cons p rest ih =>
      intro e q h
      by_cases hlt : (g p.1 p.2).elevation < e
      · simp only [firstMinBelow, if_pos hlt] at h
        cases hfm : firstMinBelow g ((g p.1 p.2).elevation) rest with
        | some q2 =>
            rw [hfm] at h
            simp at h
            subst h
            obtain ⟨l1, l2, hsplit, hfirst⟩ := ih ((g p.1 p.2).elevation) q2 hfm
            obtain ⟨-, hlt2, -⟩ := firstMinBelow_some g rest ((g p.1 p.2).elevation) q2 hfm
            refine ⟨p :: l1, l2, by rw [hsplit]; rfl, ?_⟩
            intro r hr
            rcases List.mem_cons.mp hr with rfl | hr2
            · exact hlt2
            · exact hfirst r hr2
        | none =>
            rw [hfm] at h
            simp at h
            subst h
            exact ⟨[], rest, rfl, by intro r hr; exact absurd hr (List.not_mem_nil r)⟩
      · simp only [firstMinBelow, if_neg hlt] at h
        obtain ⟨l1, l2, hsplit, hfirst⟩ := ih e q h
        obtain ⟨-, hlt2, -⟩ := firstMinBelow_some g rest e q h
        refine ⟨p :: l1, l2, by rw [hsplit]; rfl, ?_⟩
        intro r hr
        rcases List.mem_cons.mp hr with rfl | hr2
        · linarith [not_lt.mp hlt]
        · exact hfirst r hr2

/-! ## Invariants of river path tracing -/

/-- 4-connectedness: the second coordinate pair differs from the first by
exactly one step along exactly one axis. -/
def adjacent4 (p q : ℤ × ℤ) : Prop :=
  (q.1 = p.1 ∧ (q.2 = p.2 + 1 ∨ q.2 = p.2 - 1)) ∨
  (q.2 = p.2 ∧ (q.1 = p.1 + 1 ∨ q.1 = p.1 - 1))

theorem mem_getNeighbors_adjacent {w h : ℕ} {x y : ℤ} {p : ℤ × ℤ}
    (hp : p ∈ getNeighbors w h x y) : adjacent4 (x, y) p := by
  unfold getNeighbors at hp
  rw [List.mem_filter] at hp
  have hm := hp.1
  simp only [List.mem_cons, List.not_mem_nil, or_false] at hm
  rcases hm with rfl | rfl | rfl | rfl <;> simp [adjacent4]

/-- Invariants maintained by the trace loop: the path stays duplicate-free,
4-connected, grows by at most one entry per iteration, and never shrinks. -/
theorem traceAux_invariants (g : Grid) (w h : ℕ) :
    ∀ (fuel : ℕ) (c : ℤ × ℤ) (path visited : List (ℤ × ℤ)),
      path.getLast? = some c →
      List.Chain' adjacent4 path →
      path.Nodup →
      (∀ p : ℤ × ℤ, p ∈ path ↔ p ∈ visited) →
      (traceAux g w h fuel c path visited).Nodup
      ∧ List.Chain' adjacent4 (traceAux g w h fuel c path visited)
      ∧ (traceAux g w h fuel c path visited).length ≤ path.length + fuel
      ∧ path.length ≤ (traceAux g w h fuel c path visited).length := by
  intro fuel
  induction fuel with
  | zero =>
      intro c path visited hlast hchain hnodup hiff
      exact ⟨hnodup, hchain, by simp [traceAux], by simp [traceAux]⟩
  | succ n ih =>
      intro c path visited hlast hchain hnodup hiff
      by_cases hw : (g c.1 c.2).water
      · rw [show traceAux g w h (n+1) c path visited = path from by
          unfold traceAux; rw [if_pos hw]]
        exact ⟨hnodup, hchain, by omega, le_refl _⟩
      · cases hsel : (selectLowest g visited (getNeighbors w h c.1 c.2)
            (none, (g c.1 c.2).elevation)).1 with
        | none =>
            rw [show traceAux g w h (n+1) c path visited = path from by
              unfold traceAux; rw [if_neg hw, hsel]]
            exact ⟨hnodup, hchain, by omega, le_refl _⟩
        | some p =>
            have hstep : traceAux g w h (n+1) c path visited
                = traceAux g w h n p (path ++ [p]) (p :: visited) := by
              unfold traceAux
              rw [if_neg hw, hsel]
              cases n <;> rfl
            have hfmb : firstMinBelow g ((g c.1 c.2).elevation)
                ((getNeighbors w h c.1 c.2).filter
                  (fun q => !decide (q ∈ visited))) = some p := by
              have := selectLowest_eq_firstMinBelow g visited
                (getNeighbors w h c.1 c.2) none ((g c.1 c.2).elevation)
              rw [hsel] at this
              cases hx : firstMinBelow g ((g c.1 c.2).elevation)
                  ((getNeighbors w h c.1 c.2).filter
                    (fun q => !decide (q ∈ visited))) <;> rw [hx] at this
              · exact absurd this.symm (by simp)
              · rw [this]
            obtain ⟨hmem, -, -⟩ := firstMinBelow_some g _ _ p hfmb
            rw [List.mem_filter] at hmem
            have hadj : adjacent4 c p := by
              have := mem_getNeighbors_adjacent hmem.1
              exact this
            have hnotvis : p ∉ visited := by
              have := hmem.2
              simp at this
              exact this
            have hnotpath : p ∉ path := fun hc => hnotvis ((hiff p).mp hc)
            have hlast2 : (path ++ [p]).getLast? = some p := by
              simp
            have hchain2 : List.Chain' adjacent4 (path ++ [p]) := by
              rw [List.chain'_append]
              refine ⟨hchain, List.chain'_singleton p, ?_⟩
              intro a ha b hb
              rw [hlast] at ha
              simp at ha hb
              subst ha
              subst hb
              exact hadj
            have hnodup2 : (path ++ [p]).Nodup := by
              rw [List.nodup_append]
              exact ⟨hnodup, List.nodup_singleton p, by
                intro a ha hb
                simp at hb
                subst hb
                exact hnotpath ha⟩
            have hiff2 : ∀ q : ℤ × ℤ, q ∈ path ++ [p] ↔ q ∈ p :: visited := by
              intro q
              simp only [List.mem_append, List.mem_cons, List.mem_singleton]
              rw [hiff q]
              tauto
            obtain ⟨ha, hb, hc2, hd⟩ := ih p (path ++ [p]) (p :: visited)
              hlast2 hchain2 hnodup2 hiff2
            rw [hstep]
            refine ⟨ha, hb, ?_, ?_⟩
            · have : (path ++ [p]).length = path.length + 1 := by simp
              omega
            · have : (path ++ [p]).length = path.length + 1 := by simp
              omega

/-- The traced river path is duplicate-free, 4-connected, nonempty and at
most width*height+1 long (the source plus one tile per iteration of the
capped loop). -/
theorem traceRiverPath_invariants (g : Grid) (w h : ℕ) (sx sy : ℤ) :
    (traceRiverPath g w h sx sy).Nodup
    ∧ List.Chain' adjacent4 (traceRiverPath g w h sx sy)
    ∧ (traceRiverPath g w h sx sy).length ≤ w * h + 1
    ∧ 1 ≤ (traceRiverPath g w h sx sy).length := by
  have := traceAux_invariants g w h (w * h) (sx, sy) [(sx, sy)] [(sx, sy)]
    rfl (List.chain'_singleton _) (List.nodup_singleton _) (fun p => Iff.rfl)
  obtain ⟨ha, hb, hc, hd⟩ := this
  refine ⟨ha, hb, ?_, ?_⟩ <;> unfold traceRiverPath <;> simp at hc hd ⊢ <;> omega

/-- C4: each trace step examines the four in-bounds axis neighbors, built in
the fixed order (x,y+1),(x+1,y),(x,y-1),(x-1,y) by getNeighbors, skipping
ones already visited; it moves to the first-enumerated neighbor achieving
the minimum elevation strictly below the current tile (every neighbor
enumerated before the chosen one is strictly higher, so ties go to the
earlier one); it stops at water (the mouth) or when no unvisited neighbor is
strictly lower; and the loop is capped at width*height iterations, so the
path never exceeds width*height + 1 entries. -/
theorem c4_trace_step_semantics (g : Grid) (w h : ℕ) :
    (∀ (visited cands : List (ℤ × ℤ)) (e : ℚ),
      (selectLowest g visited cands (none, e)).1
        = firstMinBelow g e (cands.filter (fun p => !decide (p ∈ visited))))
    ∧ (∀ (e : ℚ) (l : List (ℤ × ℤ)),
        firstMinBelow g e l = none ↔ ∀ p ∈ l, ¬((g p.1 p.2).elevation < e))
    ∧ (∀ (e : ℚ) (l : List (ℤ × ℤ)) (q : ℤ × ℤ), firstMinBelow g e l = some q →
        q ∈ l ∧ (g q.1 q.2).elevation < e
        ∧ (∀ r ∈ l, (g r.1 r.2).elevation < e →
            (g q.1 q.2).elevation ≤ (g r.1 r.2).elevation)
        ∧ ∃ l1 l2, l = l1 ++ q :: l2
            ∧ ∀ r ∈ l1, (g q.1 q.2).elevation < (g r.1 r.2).elevation)
    ∧ (∀ (fuel : ℕ) (c : ℤ × ℤ) (path visited : List (ℤ × ℤ)),
        traceAux g w h (fuel + 1) c path visited
          = if (g c.1 c.2).water then path
            else
              match firstMinBelow g ((g c.1 c.2).elevation)
                  ((getNeighbors w h c.1 c.2).filter
                    (fun p => !decide (p ∈ visited))) with
              | none => path
              | some p => traceAux g w h fuel p (path ++ [p]) (p :: visited))
    ∧ (∀ sx sy : ℤ, (traceRiverPath g w h sx sy).length ≤ w * h + 1) := by
  refine ⟨?_, ?_, ?_, ?_, ?_⟩
  · intro visited cands e
    rw [selectLowest_eq_firstMinBelow]
    cases firstMinBelow g e (cands.filter (fun p => !decide (p ∈ visited))) <;> rfl
  · exact fun e l => firstMinBelow_none g l e
  · intro e l q hq
    obtain ⟨h1, h2, h3⟩ := firstMinBelow_some g l e q hq
    obtain ⟨l1, l2, h4, h5⟩ := firstMinBelow_first g l e q hq
    exact ⟨h1, h2, h3, l1, l2, h4, h5⟩
  · intro fuel c path visited
    unfold traceAux
    rw [selectLowest_eq_firstMinBelow g visited _ none]
    by_cases hw : (g c.1 c.2).water
    · rw [if_pos hw, if_pos hw]
    · rw [if_neg hw, if_neg hw]
      cases firstMinBelow g ((g c.1 c.2).elevation)
          ((getNeighbors w h c.1 c.2).filter (fun p => !decide (p ∈ visited))) with
      | none => rfl
      | some p => cases fuel <;> rfl
  · intro sx sy
    exact (traceRiverPath_invariants g w h sx sy).2.2.1

/-- C4 witness: the iteration-cap conjunct applied to the placeholder grid
on a 3 by 1 map. -/
theorem c4_trace_witness :
    (traceRiverPath initialGrid 3 1 0 0).length ≤ 3 * 1 + 1 :=
  (c4_trace_step_semantics initialGrid 3 1).2.2.2.2 0 0

/-! ## The river stage as a function of the elevation grid -/

/-- The trace loop reads only elevation and water, so grids agreeing on
those fields trace identically. -/
theorem selectLowest_congr {g1 g2 : Grid} (hag : agreeEW g1 g2)
    (visited : List (ℤ × ℤ)) :
    ∀ (l : List (ℤ × ℤ)) (acc : Option (ℤ × ℤ) × ℚ),
      selectLowest g1 visited l acc = selectLowest g2 visited l acc := by
  intro l
  induction l with
  | nil => intro acc; rfl
  | cons p rest ih =>
      intro acc
      unfold selectLowest
      rw [(hag p.1 p.2).1]
      by_cases hv : p ∈ visited
      · rw [if_pos hv, if_pos hv]
        exact ih acc
      · rw [if_neg hv, if_neg hv]
        by_cases hlt : (g2 p.1 p.2).elevation < acc.2
        · rw [if_pos hlt, if_pos hlt]
          exact ih _
        · rw [if_neg hlt, if_neg hlt]
          exact ih acc

theorem traceAux_congr {g1 g2 : Grid} (hag : agreeEW g1 g2) (w h : ℕ) :
    ∀ (fuel : ℕ) (c : ℤ × ℤ) (path visited : List (ℤ × ℤ)),
      traceAux g1 w h fuel c path visited
        = traceAux g2 w h fuel c path visited := by
  intro fuel
  induction fuel with
  | zero => intro c path visited; rfl
  | succ n ih =>
      intro c path visited
      unfold traceAux
      rw [(hag c.1 c.2).2, (hag c.1 c.2).1, selectLowest_congr hag]
      by_cases hw : (g2 c.1 c.2).water
      · rw [if_pos hw, if_pos hw]
      · rw [if_neg hw, if_neg hw]
        cases (selectLowest g2 visited (getNeighbors w h c.1 c.2)
            (none, (g2 c.1 c.2).elevation)).1 with
        | none => rfl
        | some p => exact ih p _ _

theorem traceRiverPath_congr {g1 g2 : Grid} (hag : agreeEW g1 g2)
    (w h : ℕ) (sx sy : ℤ) :
    traceRiverPath g1 w h sx sy = traceRiverPath g2 w h sx sy :=
  traceAux_congr hag w h (w * h) (sx, sy) _ _

/-- Marking sets the river flag on every path tile and never clears a set
flag. -/
theorem markRiverTiles_river : ∀ (path : List (ℤ × ℤ)) (g : Grid),
    (∀ p ∈ path, ((markRiverTiles g path) p.1 p.2).river = true)
    ∧ (∀ x y, (g x y).river = true → ((markRiverTiles g path) x y).river = true) := by
  intro path
  induction path with
  | nil =>
      intro g
      exact ⟨by simp, fun x y hh => hh⟩
  | cons q rest ih =>
      intro g
      have hrw : markRiverTiles g (q :: rest)
          = markRiverTiles (setTile g q.1 q.2 { g q.1 q.2 with river := true }) rest := rfl
      rw [hrw]
      constructor
      · intro p hp
        rcases List.mem_cons.mp hp with rfl | hp2
        · apply (ih _).2
          simp [setTile]
        · exact (ih _).1 p hp2
      · intro x y hh
        apply (ih _).2
        simp only [setTile]
        by_cases hab : x = q.1 ∧ y = q.2
        · rw [if_pos hab]
        · rw [if_neg hab]
          exact hh

/-- The per-source fold produces exactly the rivers whose paths, traced
against the frozen elevation/water fields, pass the length filter; the
traces are insensitive to the river flags being set along the way. -/
theorem riverFold_spec (w h : ℕ) (g : Grid) :
    ∀ (l : List (ℕ × (ℤ × ℤ))) (acc : List River × Grid), agreeEW acc.2 g →
      (l.foldl (riverLoop w h) acc).1
        = acc.1 ++ l.filterMap (fun ip =>
            if 10 < (traceRiverPath g w h ip.2.1 ip.2.2).length then
              some (mkRiver ip.1 ip.2 (traceRiverPath g w h ip.2.1 ip.2.2))
            else none) := by
  intro l
  induction l with
  | nil =>
      intro acc hacc
      simp
  | cons ip rest ih =>
      intro acc hacc
      simp only [List.foldl_cons, List.filterMap_cons]
      have htr : traceRiverPath acc.2 w h ip.2.1 ip.2.2
          = traceRiverPath g w h ip.2.1 ip.2.2 := traceRiverPath_congr hacc w h _ _
      by_cases hk : 10 < (traceRiverPath g w h ip.2.1 ip.2.2).length
      · have hstep : riverLoop w h acc ip
            = (acc.1 ++ [mkRiver ip.1 ip.2 (traceRiverPath g w h ip.2.1 ip.2.2)],
               markRiverTiles acc.2 (traceRiverPath g w h ip.2.1 ip.2.2)) := by
          unfold riverLoop
          rw [htr, if_pos hk]
        rw [hstep, if_pos hk,
          ih _ (agreeEW_trans (markRiverTiles_agree _ _) hacc)]
        simp
      · have hstep : riverLoop w h acc ip = acc := by
          unfold riverLoop
          rw [htr, if_neg hk]
        rw [hstep, if_neg hk]
        exact ih acc hacc

/-- After the fold, every kept river's path tiles carry the river flag. -/
theorem riverFold_marks (w h : ℕ) :
    ∀ (l : List (ℕ × (ℤ × ℤ))) (acc : List River × Grid),
      (∀ r ∈ acc.1, ∀ p ∈ r.path, ((acc.2 : Grid) p.1 p.2).river = true) →
      ∀ r ∈ (l.foldl (riverLoop w h) acc).1, ∀ p ∈ r.path,
        (((l.foldl (riverLoop w h) acc).2) p.1 p.2).river = true := by
  intro l
  induction l with
  | nil => intro acc hacc; exact hacc
  | cons ip rest ih =>
      intro acc hacc
      simp only [List.foldl_cons]
      apply ih
      by_cases hk : 10 < (traceRiverPath acc.2 w h ip.2.1 ip.2.2).length
      · have hstep : riverLoop w h acc ip
            = (acc.1 ++ [mkRiver ip.1 ip.2 (traceRiverPath acc.2 w h ip.2.1 ip.2.2)],
               markRiverTiles acc.2 (traceRiverPath acc.2 w h ip.2.1 ip.2.2)) := by
          unfold riverLoop
          rw [if_pos hk]
        rw [hstep]
        intro r hr p hp
        rcases List.mem_append.mp hr with hr1 | hr2
        · exact (markRiverTiles_river _ _).2 _ _ (hacc r hr1 p hp)
        · simp only [List.mem_singleton] at hr2
          subst hr2
          simp only [mkRiver] at hp
          exact (markRiverTiles_river _ _).1 p hp
      · have hstep : riverLoop w h acc ip = acc := by
          unfold riverLoop
          rw [if_neg hk]
        rw [hstep]
        exact hacc

theorem actualRiverCount_eq_min (k : ℕ) (l : List (ℤ × ℤ)) :
    actualRiverCount k l = min k l.length := by
  unfold actualRiverCount
  split <;> omega

/-- C3: every river kept by the hydrology stage (and surviving unchanged in
the generate output, of which pipelineFromGrid is the post-elevation part)
has a path longer than 10 tiles, with no repeated coordinate, 4-connected
consecutive steps, and the river flag set on every path tile; and the number
of kept rivers is at most min(requested count, number of eligible source
tiles). -/
theorem c3_river_validity (c : Config) (g : Grid) (rng : Rng) :
    (∀ r ∈ (pipelineFromGrid c g rng).rivers,
      10 < r.path.length
      ∧ r.path.Nodup
      ∧ List.Chain' adjacent4 r.path
      ∧ ∀ p ∈ r.path, ((pipelineFromGrid c g rng).tiles p.1 p.2).river = true)
    ∧ (pipelineFromGrid c g rng).rivers.length
        ≤ min c.river_count (riverSources g c.width c.height).length := by
  have hrfl : (pipelineFromGrid c g rng).rivers
      = ((rng.sample (riverSources g c.width c.height)
          (actualRiverCount c.river_count (riverSources g c.width c.height))).1.enum.foldl
            (riverLoop c.width c.height) ([], g)).1 := rfl
  have hspec := riverFold_spec c.width c.height g
    ((rng.sample (riverSources g c.width c.height)
        (actualRiverCount c.river_count (riverSources g c.width c.height))).1.enum)
    ([], g) (agreeEW_refl g)
  have hmarks := riverFold_marks c.width c.height
    ((rng.sample (riverSources g c.width c.height)
        (actualRiverCount c.river_count (riverSources g c.width c.height))).1.enum)
    ([], g) (by intro r hr; simp at hr)
  constructor
  · intro r hr
    have hmark := hmarks r (by rw [← hrfl]; exact hr)
    rw [hrfl, hspec, List.nil_append] at hr
    obtain ⟨ip, hip, heq⟩ := List.mem_filterMap.mp hr
    by_cases hk : 10 < (traceRiverPath g c.width c.height ip.2.1 ip.2.2).length
    · rw [if_pos hk] at heq
      have hreq : r = mkRiver ip.1 ip.2 (traceRiverPath g c.width c.height ip.2.1 ip.2.2) :=
        (Option.some.inj heq).symm
      have hpath : r.path = traceRiverPath g c.width c.height ip.2.1 ip.2.2 := by
        rw [hreq]
        rfl
      obtain ⟨hnd, hch, -, -⟩ :=
        traceRiverPath_invariants g c.width c.height ip.2.1 ip.2.2
      refine ⟨by rw [hpath]; exact hk, by rw [hpath]; exact hnd,
        by rw [hpath]; exact hch, ?_⟩
      intro p hp
      have := hmark p hp
      exact this
    · rw [if_neg hk] at heq
      exact absurd heq (by simp)
  · rw [hrfl, hspec, List.nil_append]
    calc (List.filterMap _ _).length
        ≤ ((rng.sample (riverSources g c.width c.height)
            (actualRiverCount c.river_count (riverSources g c.width c.height))).1.enum).length :=
          List.length_filterMap_le _ _
      _ ≤ min c.river_count (riverSources g c.width c.height).length := by
          rw [List.enum_length]
          have hsample : (rng.sample (riverSources g c.width c.height)
              (actualRiverCount c.river_count (riverSources g c.width c.height))).1
              = (riverSources g c.width c.height).take
                  (actualRiverCount c.river_count (riverSources g c.width c.height)) := rfl
          rw [hsample, List.length_take,
            actualRiverCount_eq_min c.river_count (riverSources g c.width c.height)]
          omega

/-- A small synthetic elevation grid (13 wide, 1 high): a single eligible
source at x = 12, a strictly decreasing land ramp down to the water tile at
x = 0, so exactly one river of length 13 is traced. -/
def witnessGrid : Grid := fun x y =>
  if y = 0 ∧ x = 12 then
    { x := x, y := y, elevation := 4/5, moisture := 0, biome := "", water := false }
  else if y = 0 ∧ 1 ≤ x ∧ x ≤ 11 then
    { x := x, y := y, elevation := 2/5 + (x:ℚ)/100, moisture := 0, biome := "",
      water := false }
  else if y = 0 ∧ x = 0 then
    { x := x, y := y, elevation := 1/10, moisture := 0, biome := "", water := true }
  else placeholderTile

/-- The 13 by 1 configuration driving the witness grid. -/
def witnessCfg : Config := ⟨13, 1, 0, "none", 1, 1/2, 2, 100, 8, "west"⟩

/-- C3 witness: the single river traced on the witness grid, checked against
the validity theorem. -/
theorem c3_river_witness :
    10 < ((pipelineFromGrid witnessCfg witnessGrid ⟨0, 0⟩).rivers.getD 0
        (mkRiver 0 (0, 0) [])).path.length
    ∧ ((pipelineFromGrid witnessCfg witnessGrid ⟨0, 0⟩).rivers.getD 0
        (mkRiver 0 (0, 0) [])).path.Nodup := by
  have hmem : (pipelineFromGrid witnessCfg witnessGrid ⟨0, 0⟩).rivers.getD 0
      (mkRiver 0 (0, 0) []) ∈ (pipelineFromGrid witnessCfg witnessGrid ⟨0, 0⟩).rivers := by
    with_unfolding_all decide
  have h := (c3_river_validity witnessCfg witnessGrid ⟨0, 0⟩).1 _ hmem
  exact ⟨h.1, h.2.1⟩

/-- C8: when there are fewer eligible source tiles than the requested river
count, the count is silently lowered to the number of sources (the modelled
sample never reaches its error case, which fires only when asked for more
elements than the population has), every eligible source is traced, and the
output is exactly the list of traced rivers that pass the length filter. -/
theorem c8_degraded_river_count (c : Config) (g : Grid) (rng : Rng)
    (hlt : (riverSources g c.width c.height).length < c.river_count) :
    actualRiverCount c.river_count (riverSources g c.width c.height)
        = (riverSources g c.width c.height).length
    ∧ (rng.sample (riverSources g c.width c.height)
        (actualRiverCount c.river_count (riverSources g c.width c.height))).1
        = riverSources g c.width c.height
    ∧ (generateRivers c g rng).1
        = (riverSources g c.width c.height).enum.filterMap (fun ip =>
            if 10 < (traceRiverPath g c.width c.height ip.2.1 ip.2.2).length then
              some (mkRiver ip.1 ip.2 (traceRiverPath g c.width c.height ip.2.1 ip.2.2))
            else none) := by
  have h1 : actualRiverCount c.river_count (riverSources g c.width c.height)
      = (riverSources g c.width c.height).length := by
    unfold actualRiverCount
    rw [if_pos hlt]
  have h2 : (rng.sample (riverSources g c.width c.height)
      (actualRiverCount c.river_count (riverSources g c.width c.height))).1
      = riverSources g c.width c.height := by
    show (riverSources g c.width c.height).take _ = riverSources g c.width c.height
    rw [h1, List.take_length]
  refine ⟨h1, h2, ?_⟩
  have hrfl : (generateRivers c g rng).1
      = ((rng.sample (riverSources g c.width c.height)
          (actualRiverCount c.river_count (riverSources g c.width c.height))).1.enum.foldl
            (riverLoop c.width c.height) ([], g)).1 := rfl
  rw [hrfl, h2, riverFold_spec c.width c.height g _ ([], g) (agreeEW_refl g),
    List.nil_append]

/-- C8 witness: the witness grid has one eligible source, fewer than the
eight requested rivers, and generation degrades silently. -/
theorem c8_degraded_witness :
    actualRiverCount witnessCfg.river_count
        (riverSources witnessGrid witnessCfg.width witnessCfg.height)
      = (riverSources witnessGrid witnessCfg.width witnessCfg.height).length :=
  (c8_degraded_river_count witnessCfg witnessGrid ⟨0, 0⟩ (by with_unfolding_all decide)).1

/-- C1: generation is deterministic: two runs from identical constructor
parameters produce identical tile fields at every coordinate and identical
river lists.  All randomness (the noise permutation table, the island
centers, the river-source sample) is drawn from streams seeded with the
constructor seed, so the whole pipeline is a pure function of the
configuration. -/
theorem c1_determinism (c1 c2 : Config) (h : c1 = c2) :
    (∀ x y : ℤ,
      ((generate c1).tiles x y).elevation = ((generate c2).tiles x y).elevation
      ∧ ((generate c1).tiles x y).moisture = ((generate c2).tiles x y).moisture
      ∧ ((generate c1).tiles x y).biome = ((generate c2).tiles x y).biome
      ∧ ((generate c1).tiles x y).water = ((generate c2).tiles x y).water
      ∧ ((generate c1).tiles x y).river = ((generate c2).tiles x y).river)
    ∧ (generate c1).rivers = (generate c2).rivers := by
  subst h
  exact ⟨fun x y => ⟨rfl, rfl, rfl, rfl, rfl⟩, rfl⟩

/-- C1 witness: the determinism theorem applied to two copies of the default
continent configuration. -/
theorem c1_determinism_witness :
    (generate ⟨80, 60, 7, "continent", 5, 1/2, 2, 100, 8, "west"⟩).rivers
      = (generate ⟨80, 60, 7, "continent", 5, 1/2, 2, 100, 8, "west"⟩).rivers :=
  (c1_determinism ⟨80, 60, 7, "continent", 5, 1/2, 2, 100, 8, "west"⟩
    ⟨80, 60, 7, "continent", 5, 1/2, 2, 100, 8, "west"⟩ rfl).2

/-! ## The climate stage formula -/

/-- The rain shadow as the (amended) claim describes it: maximum of
(elevation - 7/10) * 1/2 over the in-bounds tiles at upwind offsets 1..14
with elevation above 7/10; zero when none qualifies. -/
def rainShadowSpec (g : Grid) (w h : ℕ) (wind : String) (x y : ℤ) : ℚ :=
  ((List.range' 1 14).filterMap (fun i =>
    let cx := x + (windDirection wind).1 * Int.ofNat i
    let cy := y + (windDirection wind).2 * Int.ofNat i
    if (0 ≤ cx ∧ cx < (w:ℤ) ∧ 0 ≤ cy ∧ cy < (h:ℤ))
        ∧ (7:ℚ)/10 < (g cx cy).elevation then
      some (((g cx cy).elevation - 7/10) * (1/2))
    else none)).foldl max 0

/-- The rain shadow as the original claim states it, scanning 15 cells
(upwind offsets 1..15). -/
def rainShadowSpec15 (g : Grid) (w h : ℕ) (wind : String) (x y : ℤ) : ℚ :=
  ((List.range' 1 15).filterMap (fun i =>
    let cx := x + (windDirection wind).1 * Int.ofNat i
    let cy := y + (windDirection wind).2 * Int.ofNat i
    if (0 ≤ cx ∧ cx < (w:ℤ) ∧ 0 ≤ cy ∧ cy < (h:ℤ))
        ∧ (7:ℚ)/10 < (g cx cy).elevation then
      some (((g cx cy).elevation - 7/10) * (1/2))
    else none)).foldl max 0

/-- The running-maximum loop of _calculate_rain_shadow equals the maximum
over the qualifying scanned tiles. -/
theorem rainShadow_eq_spec (g : Grid) (w h : ℕ) (wind : String) (x y : ℤ) :
    calculateRainShadow g w h wind x y = rainShadowSpec g w h wind x y := by
  unfold calculateRainShadow rainShadowSpec
  have main : ∀ (l : List ℕ) (a : ℚ),
      l.foldl (fun maxb i =>
        let cx := x + (windDirection wind).1 * Int.ofNat i
        let cy := y + (windDirection wind).2 * Int.ofNat i
        if 0 ≤ cx ∧ cx < (w:ℤ) ∧ 0 ≤ cy ∧ cy < (h:ℤ) then
          if (7:ℚ)/10 < (g cx cy).elevation then
            max maxb (((g cx cy).elevation - 7/10) * (1/2))
          else maxb
        else maxb) a
      = (l.filterMap (fun i =>
          let cx := x + (windDirection wind).1 * Int.ofNat i
          let cy := y + (windDirection wind).2 * Int.ofNat i
          if (0 ≤ cx ∧ cx < (w:ℤ) ∧ 0 ≤ cy ∧ cy < (h:ℤ))
              ∧ (7:ℚ)/10 < (g cx cy).elevation then
            some (((g cx cy).elevation - 7/10) * (1/2))
          else none)).foldl max a := by
    intro l
    induction l with
    | nil => intro a; rfl
    | cons i rest ih =>
        intro a
        simp only [List.foldl_cons, List.filterMap_cons]
        by_cases hin : 0 ≤ x + (windDirection wind).1 * Int.ofNat i
            ∧ x + (windDirection wind).1 * Int.ofNat i < (w:ℤ)
            ∧ 0 ≤ y + (windDirection wind).2 * Int.ofNat i
            ∧ y + (windDirection wind).2 * Int.ofNat i < (h:ℤ)
        · by_cases hgt : (7:ℚ)/10 < (g (x + (windDirection wind).1 * Int.ofNat i)
              (y + (windDirection wind).2 * Int.ofNat i)).elevation
          · rw [if_pos hin, if_pos hgt, if_pos ⟨hin, hgt⟩]
            simp only [List.foldl_cons]
            exact ih _
          · rw [if_pos hin, if_neg hgt, if_neg (by
              intro hc
              exact hgt hc.2)]
            exact ih a
        · rw [if_neg hin, if_neg (by
            intro hc
            exact hin hc.1)]
          exact ih a
  exact main (List.range' 1 14) 0

/-- A windowed scan of a grid with no water and no river tile finds nothing,
and _distance_to_water returns the search radius 40. -/
theorem distanceToWater_no_wet (g : Grid) (w h : ℕ) (x y : ℤ)
    (hdry : ∀ a b : ℤ, (g a b).water = false ∧ (g a b).river = false) :
    distanceToWater g w h x y = 40 := by
  unfold distanceToWater
  have main : ∀ (l : List (ℤ × ℤ)) (acc : Option ℚ),
      l.foldl (fun (acc : Option ℚ) d =>
        let nx := x + d.2
        let ny := y + d.1
        if 0 ≤ nx ∧ nx < (w:ℤ) ∧ 0 ≤ ny ∧ ny < (h:ℤ) then
          if (g nx ny).water || (g nx ny).river then
            some (match acc with
              | none => ((d.2.natAbs + d.1.natAbs : ℕ) : ℚ)
              | some m => min m ((d.2.natAbs + d.1.natAbs : ℕ) : ℚ))
          else acc
        else acc) acc = acc := by
    intro l
    induction l with
    | nil => intro acc; rfl
    | cons d rest ih =>
        intro acc
        simp only [List.foldl_cons]
        by_cases hin : 0 ≤ x + d.2 ∧ x + d.2 < (w:ℤ) ∧ 0 ≤ y + d.1 ∧ y + d.1 < (h:ℤ)
        · rw [if_pos hin, (hdry (x + d.2) (y + d.1)).1, (hdry (x + d.2) (y + d.1)).2]
          simp only [Bool.or_self]
          rw [if_neg (by simp)]
          exact ih acc
        · rw [if_neg hin]
          exact ih acc
  rw [main]

/-- C5 (amended): the climate stage sets each tile's moisture to the clamped
sum of water proximity, the elevation lift and minus the rain shadow, where
the rain shadow is the maximum blocking over the in-bounds tiles at upwind
offsets 1 through 14 (the loop runs over range(1, 15)) with elevation above
7/10. -/
theorem c5_moisture_formula (c : Config) (g : Grid) (x y : ℤ) :
    ((calculateMoisture c g) x y).moisture
      = clamp01 (max 0 (1 - distanceToWater g c.width c.height x y / 30)
          + (g x y).elevation * (3/10)
          - calculateRainShadow g c.width c.height c.prevailing_wind x y)
    ∧ calculateRainShadow g c.width c.height c.prevailing_wind x y
      = rainShadowSpec g c.width c.height c.prevailing_wind x y :=
  ⟨rfl, rainShadow_eq_spec g c.width c.height c.prevailing_wind x y⟩

/-- The counterexample grid: a lone mountain of elevation 9/10 at the
origin, uniform land of elevation 1/2 elsewhere, no water or river
anywhere. -/
def shadowGrid : Grid := fun x y =>
  if x = 0 ∧ y = 0 then
    { x := x, y := y, elevation := 9/10, moisture := 0, biome := "", water := false }
  else
    { x := x, y := y, elevation := 1/2, moisture := 0, biome := "", water := false }

/-- The 16 by 1 configuration for the counterexample, prevailing wind from
the west. -/
def shadowCfg : Config := ⟨16, 1, 0, "none", 1, 1/2, 2, 100, 8, "west"⟩

/-- C5 counterexample: at tile (15, 0) of the counterexample grid the
mountain sits exactly 15 cells upwind.  The code's scan (offsets 1..14)
misses it and produces moisture 3/20, while the claim's 15-cell scan would
subtract a penalty of 1/10 and produce 1/20: the claimed formula does not
match the computed moisture. -/
theorem c5_moisture_counterexample :
    ((calculateMoisture shadowCfg shadowGrid) 15 0).moisture
      ≠ clamp01 (max 0 (1 - distanceToWater shadowGrid 16 1 15 0 / 30)
          + (shadowGrid 15 0).elevation * (3/10)
          - rainShadowSpec15 shadowGrid 16 1 "west" 15 0) := by
  have hdry : ∀ a b : ℤ, (shadowGrid a b).water = false
      ∧ (shadowGrid a b).river = false := by
    intro a b
    unfold shadowGrid
    by_cases hab : a = 0 ∧ b = 0
    · rw [if_pos hab]
      exact ⟨rfl, rfl⟩
    · rw [if_neg hab]
      exact ⟨rfl, rfl⟩
  have hdist : distanceToWater shadowGrid 16 1 15 0 = 40 :=
    distanceToWater_no_wet shadowGrid 16 1 15 0 hdry
  have hmoist : ((calculateMoisture shadowCfg shadowGrid) 15 0).moisture
      = clamp01 (max 0 (1 - distanceToWater shadowGrid 16 1 15 0 / 30)
          + (shadowGrid 15 0).elevation * (3/10)
          - calculateRainShadow shadowGrid 16 1 "west" 15 0) := rfl
  rw [hmoist, hdist]
  have hcode : calculateRainShadow shadowGrid 16 1 "west" 15 0 = 0 := by
    with_unfolding_all decide
  have hspec : rainShadowSpec15 shadowGrid 16 1 "west" 15 0 = 1/10 := by
    with_unfolding_all decide
  have helev : (shadowGrid 15 0).elevation = 1/2 := by
    with_unfolding_all decide
  rw [hcode, hspec, helev]
  unfold clamp01
  norm_num

/-- C2 witness: the consistency theorem applied to the 13 by 1 configuration
at the origin. -/
theorem c2_water_witness :
    ((generate witnessCfg).tiles 0 0).water
      = decide (((generate witnessCfg).tiles 0 0).elevation < 2/5) :=
  (c2_water_elevation_consistency witnessCfg 0 0).1

/-- C9 witness: a 10 by 60 request is rejected. -/
theorem c9_init_witness :
    ∃ msg, terrainGeneratorInit 10 60 0 "continent" 5 (1/2) 2 100 8 "west"
      = Except.error msg :=
  (c9_init_validation 10 60 0 "continent" 5 (1/2) 2 100 8 "west").mpr
    (Or.inl (by norm_num))

/-- C10 witness: at elevation 1 and moisture 1/2 the classifier returns
grassland. -/
theorem c10_biome_witness :
    determineBiome 1 (1/2) loadBiomeRules = "grassland" :=
  (c10_elevation_one_defaults_to_grassland (1/2)).2

/-! ## Pointwise view of the elevation fill (for concrete evaluation) -/

/-- In highlands mode the shaping consumes no randomness, so the produced
tile does not depend on the rng state. -/
theorem elevationTile_fst_rng_free (c : Config) (noise : SimplexNoise)
    (hmode : c.mode = "highlands") (rng1 rng2 : Rng) (x y : ℤ) :
    (elevationTile c noise rng1 x y).1 = (elevationTile c noise rng2 x y).1 := by
  unfold elevationTile applyModeShaping
  simp [hmode]

/-- Cells not traversed by the loop keep their previous value. -/
theorem elevationFold_not_mem (c : Config) (noise : SimplexNoise) :
    ∀ (l : List (ℤ × ℤ)) (acc : Grid × Rng) (x y : ℤ), (x, y) ∉ l →
      ((l.foldl (fun (acc : Grid × Rng) p =>
        let tr := elevationTile c noise acc.2 p.1 p.2
        (setTile acc.1 p.1 p.2 tr.1, tr.2)) acc).1) x y = acc.1 x y := by
  intro l
  induction l with
  | nil => intro acc x y h; rfl
  | cons p rest ih =>
      intro acc x y h
      simp only [List.foldl_cons]
      rw [ih _ x y (fun hc => h (List.mem_cons_of_mem _ hc))]
      simp only [setTile]
      rw [if_neg]
      intro hc
      apply h
      rw [List.mem_cons]
      left
      obtain ⟨h1, h2⟩ := hc
      subst h1
      subst h2
      rfl

/-- In highlands mode, the grid produced by the elevation loop holds, at
every traversed coordinate, exactly the tile of the per-tile computation
(whose value is rng-independent there). -/
theorem elevationFold_mem (c : Config) (noise : SimplexNoise)
    (hmode : c.mode = "highlands") :
    ∀ (l : List (ℤ × ℤ)) (acc : Grid × Rng) (x y : ℤ), (x, y) ∈ l →
      ((l.foldl (fun (acc : Grid × Rng) p =>
        let tr := elevationTile c noise acc.2 p.1 p.2
        (setTile acc.1 p.1 p.2 tr.1, tr.2)) acc).1) x y
        = (elevationTile c noise ⟨0, 0⟩ x y).1 := by
  intro l
  induction l with
  | nil =>
      intro acc x y h
      exact absurd h (List.not_mem_nil _)
  | cons p rest ih =>
      intro acc x y h
      simp only [List.foldl_cons]
      by_cases hrest : (x, y) ∈ rest
      · exact ih _ x y hrest
      · have hp : p = (x, y) := by
          rcases List.mem_cons.mp h with heq | hmem
          · exact heq.symm
          · exact absurd hmem hrest
        subst hp
        rw [elevationFold_not_mem c noise rest _ x y hrest]
        simp only [setTile, and_self, if_true]
        exact elevationTile_fst_rng_free c noise hmode acc.2 ⟨0, 0⟩ x y

/-- Every in-bounds coordinate is traversed by the row-major loop. -/
theorem mem_rowMajor_of_bounds {w h : ℕ} {x y : ℤ} (hx0 : 0 ≤ x)
    (hxw : x < (w:ℤ)) (hy0 : 0 ≤ y) (hyh : y < (h:ℤ)) :
    (x, y) ∈ rowMajor w h := by
  unfold rowMajor
  rw [List.mem_flatten]
  refine ⟨(List.range w).map (fun a => (Int.ofNat a, Int.ofNat y.toNat)), ?_, ?_⟩
  · rw [List.mem_map]
    refine ⟨y.toNat, ?_, rfl⟩
    rw [List.mem_range]
    omega
  · rw [List.mem_map]
    refine ⟨x.toNat, ?_, ?_⟩
    · rw [List.mem_range]
      omega
    · have hxx : Int.ofNat x.toNat = x := by
        rw [Int.ofNat_eq_coe, Int.toNat_of_nonneg hx0]
      have hyy : Int.ofNat y.toNat = y := by
        rw [Int.ofNat_eq_coe, Int.toNat_of_nonneg hy0]
      rw [hxx, hyy]

/-- In highlands mode the finished elevation grid at an in-bounds coordinate
is the per-tile computation there. -/
theorem generateElevation_at (c : Config) (noise : SimplexNoise)
    (hmode : c.mode = "highlands") (rng : Rng) {x y : ℤ} (hx0 : 0 ≤ x)
    (hxw : x < (c.width:ℤ)) (hy0 : 0 ≤ y) (hyh : y < (c.height:ℤ)) :
    (generateElevation c noise rng).1 x y
      = (elevationTile c noise ⟨0, 0⟩ x y).1 :=
  elevationFold_mem c noise hmode (rowMajor c.width c.height)
    (initialGrid, rng) x y (mem_rowMajor_of_bounds hx0 hxw hy0 hyh)

set_option maxRecDepth 40000 in
set_option maxHeartbeats 4000000 in
/-- C7 counterexample: a legal constructor configuration (50 by 50, seed 0,
highlands mode, one octave, persistence 1/2, lacunarity 2, scale 2, no
rivers, west wind) whose tile (0, 25) IS water.  With scale below 100 the
domain-warped sample coordinate (x + noise*10)/scale falls deep below zero,
where the truncating int() yields a negative fractional offset, the fade
curve extrapolates, the warped noise drops far below -1, and the shaped
highlands elevation clamps to 0 < 2/5. -/
theorem c7_highlands_counterexample :
    ((generate ⟨50, 50, 0, "highlands", 1, 1/2, 2, 2, 0, "west"⟩).tiles 0 25).water
      = true := by
  have hag : agreeEW
      (generate ⟨50, 50, 0, "highlands", 1, 1/2, 2, 2, 0, "west"⟩).tiles
      (generateElevation ⟨50, 50, 0, "highlands", 1, 1/2, 2, 2, 0, "west"⟩
        (mkSimplexNoise 0) ⟨0, 0⟩).1 := by
    unfold generate
    exact pipelineFromGrid_agree _ _ _
  rw [(hag 0 25).2]
  rw [generateElevation_at ⟨50, 50, 0, "highlands", 1, 1/2, 2, 2, 0, "west"⟩
    (mkSimplexNoise 0) rfl ⟨0, 0⟩ (by norm_num) (by norm_num) (by norm_num)
    (by norm_num)]
  with_unfolding_all decide
